import Mathlib

/-!
Verification of the agent swarm motion engine of this repository: a shallow
embedding of the `SpatialGrid` helper class (`src/unnamed/part_002`) and of the
pairing state machine, force-pass control flow and integrator of
`src/src/components/ParticleSystem.js`, together with theorems settling the
frozen claims about them.

Numeric conventions: the JS engine computes with IEEE doubles; the discrete
pairing logic is embedded over `ℚ` (exact arithmetic), and the few places that
genuinely need Euclidean norms (velocity clamping, vector normalization) are
embedded over `ℝ`.  Every comparison the source makes between a Euclidean
length and a nonnegative threshold is modeled as the equivalent comparison of
squared quantities, which keeps the discrete model executable.
-/

namespace Swarm

/-- A `THREE.Vector3` with exact rational coordinates, for the discrete
pairing/grid logic. -/
structure Q3 where
  x : ℚ
  y : ℚ
  z : ℚ
deriving DecidableEq

/-- Squared 3D distance: the square of `a.distanceTo(b)`. -/
def distSq3 (a b : Q3) : ℚ :=
  (a.x - b.x) ^ 2 + (a.y - b.y) ^ 2 + (a.z - b.z) ^ 2

/-- Squared horizontal (x, z) distance. -/
def distSqPlanar (a b : Q3) : ℚ :=
  (a.x - b.x) ^ 2 + (a.z - b.z) ^ 2

/-- Squared length of a vector (`THREE.Vector3.lengthSq`). -/
def Q3.lengthSq (v : Q3) : ℚ :=
  v.x ^ 2 + v.y ^ 2 + v.z ^ 2

/-- `SpatialGrid` (`src/unnamed/part_002`, lines 3–45).  The JS `Map` from
cell-key string to bucket array is modeled as an association list in insertion
order with integer cell keys. -/
structure SpatialGrid where
  cellSize : ℚ
  grid : List ((ℤ × ℤ) × List ℕ)
deriving DecidableEq

namespace SpatialGrid

/-- `_hash(x, z)`: the cell key `(floor(x / cellSize), floor(z / cellSize))`. -/
def hashKey (g : SpatialGrid) (x z : ℚ) : ℤ × ℤ :=
  (⌊x / g.cellSize⌋, ⌊z / g.cellSize⌋)

/-- First-match lookup of a bucket, the JS `Map.get`. -/
def lookupBucket : List ((ℤ × ℤ) × List ℕ) → ℤ × ℤ → Option (List ℕ)
  | [], _ => none
  | (k, b) :: rest, key => if k = key then some b else lookupBucket rest key

/-- Add `i` to the bucket of `key`, creating the bucket if absent
(`insert`, lines 19–25: `Map.set` of a fresh array, then `push`). -/
def bucketAdd : List ((ℤ × ℤ) × List ℕ) → ℤ × ℤ → ℕ → List ((ℤ × ℤ) × List ℕ)
  | [], key, i => [(key, [i])]
  | (k, b) :: rest, key, i =>
      if k = key then (k, b ++ [i]) :: rest else (k, b) :: bucketAdd rest key i

/-- `insert(index, position)` (lines 19–25). -/
def insert (g : SpatialGrid) (index : ℕ) (position : Q3) : SpatialGrid :=
  { g with grid := bucketAdd g.grid (g.hashKey position.x position.z) index }

/-- The list `[a, a+1, ..., b]` visited by a JS `for` loop from `a` to `b`
(empty when `b < a`). -/
def intRange (a b : ℤ) : List ℤ :=
  (List.range (b + 1 - a).toNat).map fun k : ℕ => a + (k : ℤ)

/-- `getNearby(position, radius)` (lines 27–44): concatenation of the buckets
of every cell within `ceil(radius / cellSize)` cells of the query's cell, in
the x-major order of the two nested loops. -/
def getNearby (g : SpatialGrid) (position : Q3) (radius : ℚ) : List ℕ :=
  let cells : ℤ := ⌈radius / g.cellSize⌉
  let c := g.hashKey position.x position.z
  (intRange (-cells) cells).flatMap fun dx =>
    (intRange (-cells) cells).flatMap fun dz =>
      (lookupBucket g.grid (c.1 + dx, c.2 + dz)).getD []

/-- Insert a whole list of `(index, position)` agents in order. -/
def insertAll (g : SpatialGrid) (agents : List (ℕ × Q3)) : SpatialGrid :=
  agents.foldl (fun g a => g.insert a.1 a.2) g

/-- The `SpatialGrid` constructor (lines 4–7).  It records `cellSize` without
any validation and has no failure path at all; wrapping the result in
`Except` makes the absence of a construction-time error a statable fact. -/
def construct (cellSize : ℚ) : Except String SpatialGrid :=
  Except.ok { cellSize := cellSize, grid := [] }

theorem cellSize_insert (g : SpatialGrid) (j : ℕ) (p : Q3) :
    (g.insert j p).cellSize = g.cellSize := rfl

theorem cellSize_insertAll (g : SpatialGrid) (agents : List (ℕ × Q3)) :
    (g.insertAll agents).cellSize = g.cellSize := by
  induction agents generalizing g with
  | nil => rfl
  | cons a rest ih => exact (ih (g.insert a.1 a.2)).trans rfl

theorem mem_intRange {a b x : ℤ} (h1 : a ≤ x) (h2 : x ≤ b) : x ∈ intRange a b := by
  have hx : x = a + (((x - a).toNat : ℕ) : ℤ) := by omega
  have hm : (x - a).toNat ∈ List.range (b + 1 - a).toNat := List.mem_range.mpr (by omega)
  rw [hx, intRange]
  exact List.mem_map_of_mem _ hm

theorem lookupBucket_bucketAdd_self (grid : List ((ℤ × ℤ) × List ℕ))
    (key : ℤ × ℤ) (i : ℕ) :
    lookupBucket (bucketAdd grid key i) key =
      some ((lookupBucket grid key).getD [] ++ [i]) := by
  induction grid with
  | nil => simp [bucketAdd, lookupBucket]
  | cons kb rest ih =>
    obtain ⟨k, b⟩ := kb
    by_cases hk : k = key
    · subst hk; simp [bucketAdd, lookupBucket]
    · simp [bucketAdd, lookupBucket, hk, ih]

theorem lookupBucket_bucketAdd_ne (grid : List ((ℤ × ℤ) × List ℕ))
    {key key' : ℤ × ℤ} (i : ℕ) (h : key' ≠ key) :
    lookupBucket (bucketAdd grid key i) key' = lookupBucket grid key' := by
  induction grid with
  | nil => simp [bucketAdd, lookupBucket, Ne.symm h]
  | cons kb rest ih =>
    obtain ⟨k, b⟩ := kb
    by_cases hk : k = key
    · subst hk; simp [bucketAdd, lookupBucket, Ne.symm h]
    · simp [bucketAdd, lookupBucket, hk, ih]

theorem mem_bucket_insert (g : SpatialGrid) (j : ℕ) (p : Q3) (key : ℤ × ℤ)
    {i : ℕ} (h : i ∈ (lookupBucket g.grid key).getD []) :
    i ∈ (lookupBucket (g.insert j p).grid key).getD [] := by
  unfold insert
  by_cases hk : key = g.hashKey p.x p.z
  · subst hk
    rw [lookupBucket_bucketAdd_self]
    simpa using Or.inl h
  · rwa [lookupBucket_bucketAdd_ne _ _ hk]

theorem mem_bucket_insert_self (g : SpatialGrid) (i : ℕ) (p : Q3) :
    i ∈ (lookupBucket (g.insert i p).grid (g.hashKey p.x p.z)).getD [] := by
  unfold insert
  rw [lookupBucket_bucketAdd_self]
  simp

theorem mem_bucket_insertAll_of_mem (g : SpatialGrid) (agents : List (ℕ × Q3))
    (key : ℤ × ℤ) {i : ℕ} (h : i ∈ (lookupBucket g.grid key).getD []) :
    i ∈ (lookupBucket (g.insertAll agents).grid key).getD [] := by
  induction agents generalizing g with
  | nil => exact h
  | cons a rest ih => exact ih (g.insert a.1 a.2) (mem_bucket_insert g a.1 a.2 key h)

theorem mem_bucket_insertAll (g : SpatialGrid) (agents : List (ℕ × Q3))
    {i : ℕ} {p : Q3} (h : (i, p) ∈ agents) :
    i ∈ (lookupBucket (g.insertAll agents).grid (g.hashKey p.x p.z)).getD [] := by
  induction agents generalizing g with
  | nil => cases h
  | cons a rest ih =>
    rcases List.mem_cons.mp h with heq | hrest
    · have : a = (i, p) := heq.symm
      subst this
      exact mem_bucket_insertAll_of_mem (g.insert i p) rest _
        (mem_bucket_insert_self g i p)
    · exact ih (g.insert a.1 a.2) hrest

/-- Any agent in a bucket whose cell key is within `ceil(radius / cellSize)`
cells of the query's cell in both axes appears in `getNearby`. -/
theorem mem_getNearby (g : SpatialGrid) (q : Q3) (r : ℚ) {i : ℕ} (key : ℤ × ℤ)
    (hbucket : i ∈ (lookupBucket g.grid key).getD [])
    (hdx1 : (g.hashKey q.x q.z).1 - ⌈r / g.cellSize⌉ ≤ key.1)
    (hdx2 : key.1 ≤ (g.hashKey q.x q.z).1 + ⌈r / g.cellSize⌉)
    (hdz1 : (g.hashKey q.x q.z).2 - ⌈r / g.cellSize⌉ ≤ key.2)
    (hdz2 : key.2 ≤ (g.hashKey q.x q.z).2 + ⌈r / g.cellSize⌉) :
    i ∈ g.getNearby q r := by
  unfold getNearby
  simp only [List.mem_flatMap]
  refine ⟨key.1 - (g.hashKey q.x q.z).1, mem_intRange (by omega) (by omega),
          key.2 - (g.hashKey q.x q.z).2, mem_intRange (by omega) (by omega), ?_⟩
  have hk : ((g.hashKey q.x q.z).1 + (key.1 - (g.hashKey q.x q.z).1),
             (g.hashKey q.x q.z).2 + (key.2 - (g.hashKey q.x q.z).2)) = key := by
    obtain ⟨k1, k2⟩ := key
    simp only [Prod.mk.injEq]
    omega
  rwa [hk]

/-- Floors of two points at most `r` apart lie within `ceil(r / s)` cells. -/
theorem floor_div_sub_le (a b s r : ℚ) (hs : 0 < s) (h : a - b ≤ r) :
    ⌊a / s⌋ - ⌊b / s⌋ ≤ ⌈r / s⌉ := by
  have h1 : a / s ≤ b / s + r / s := by
    have hd : a / s ≤ (b + r) / s := (div_le_div_iff_of_pos_right hs).mpr (by linarith)
    rwa [add_div] at hd
  have h2 : a / s ≤ b / s + (⌈r / s⌉ : ℚ) := by
    have := Int.le_ceil (r / s)
    linarith
  have h3 : ⌊a / s⌋ ≤ ⌊b / s + (⌈r / s⌉ : ℚ)⌋ := Int.floor_le_floor h2
  rw [Int.floor_add_int] at h3
  omega

/-- The squared comparison implies the coordinate-wise bound used for the
cell-range argument. -/
theorem abs_le_of_sq_sum_le {dx dz r : ℚ} (h : dx ^ 2 + dz ^ 2 ≤ r ^ 2)
    (hr : 0 ≤ r) : dx ≤ r ∧ -r ≤ dx ∧ dz ≤ r ∧ -r ≤ dz := by
  refine ⟨?_, ?_, ?_, ?_⟩ <;> nlinarith [sq_nonneg dx, sq_nonneg dz,
    sq_nonneg (dx - r), sq_nonneg (dx + r), sq_nonneg (dz - r), sq_nonneg (dz + r)]

end SpatialGrid

/-- Core of the grid-superset property, shared by the formation analysis. -/
theorem mem_getNearby_insertAll (s : ℚ) (hs : 0 < s) (agents : List (ℕ × Q3))
    (q : Q3) (r : ℚ) (hr : 0 ≤ r) (i : ℕ) (p : Q3)
    (hmem : (i, p) ∈ agents)
    (hdist : (p.x - q.x) ^ 2 + (p.z - q.z) ^ 2 ≤ r ^ 2) :
    i ∈ (SpatialGrid.insertAll { cellSize := s, grid := [] } agents).getNearby q r := by
  set g0 : SpatialGrid := { cellSize := s, grid := [] } with hg0
  have hcell : (g0.insertAll agents).cellSize = s := SpatialGrid.cellSize_insertAll g0 agents
  have hbucket := SpatialGrid.mem_bucket_insertAll g0 agents hmem
  have hkey : (g0.insertAll agents).hashKey p.x p.z = g0.hashKey p.x p.z := by
    unfold SpatialGrid.hashKey
    rw [hcell]
  obtain ⟨hb1, hb2, hb3, hb4⟩ := SpatialGrid.abs_le_of_sq_sum_le hdist hr
  have hx1 : ⌊p.x / s⌋ - ⌊q.x / s⌋ ≤ ⌈r / s⌉ :=
    SpatialGrid.floor_div_sub_le p.x q.x s r hs (by linarith)
  have hx2 : ⌊q.x / s⌋ - ⌊p.x / s⌋ ≤ ⌈r / s⌉ :=
    SpatialGrid.floor_div_sub_le q.x p.x s r hs (by linarith)
  have hz1 : ⌊p.z / s⌋ - ⌊q.z / s⌋ ≤ ⌈r / s⌉ :=
    SpatialGrid.floor_div_sub_le p.z q.z s r hs (by linarith)
  have hz2 : ⌊q.z / s⌋ - ⌊p.z / s⌋ ≤ ⌈r / s⌉ :=
    SpatialGrid.floor_div_sub_le q.z p.z s r hs (by linarith)
  refine SpatialGrid.mem_getNearby (g0.insertAll agents) q r (g0.hashKey p.x p.z)
    hbucket ?_ ?_ ?_ ?_ <;>
    simp only [SpatialGrid.hashKey, hcell] <;> omega

/-- C2: Grid query superset.  For every positive cell size, every list of
agents inserted into a fresh `SpatialGrid`, every query position and every
radius, each inserted agent whose horizontal distance to the query point is at
most the radius (stated as the sqrt-free conjunction `dx^2 + dz^2 ≤ r^2` with
`0 ≤ r`) is a member of the list `getNearby(position, radius)` returns. -/
theorem grid_query_superset (s : ℚ) (hs : 0 < s) (agents : List (ℕ × Q3))
    (q : Q3) (r : ℚ) (hr : 0 ≤ r) (i : ℕ) (p : Q3)
    (hmem : (i, p) ∈ agents)
    (hdist : (p.x - q.x) ^ 2 + (p.z - q.z) ^ 2 ≤ r ^ 2) :
    i ∈ (SpatialGrid.insertAll { cellSize := s, grid := [] } agents).getNearby q r :=
  mem_getNearby_insertAll s hs agents q r hr i p hmem hdist

/-- Witness for C2 at a concrete instance: cell size 50, one agent at
(10, 0, 10), query at the origin with radius 25. -/
theorem grid_query_superset_witness :
    (0 : ℚ) < 50 ∧
      0 ∈ (SpatialGrid.insertAll { cellSize := 50, grid := [] }
            [(0, ⟨10, 0, 10⟩)]).getNearby ⟨0, 0, 0⟩ 25 :=
  ⟨by norm_num,
   grid_query_superset 50 (by norm_num) [(0, ⟨10, 0, 10⟩)] ⟨0, 0, 0⟩ 25
     (by norm_num) 0 ⟨10, 0, 10⟩ (by decide) (by norm_num)⟩

/-- C8 counterexample: constructing the spatial index with the non-positive
cell size `-1` does not raise; the constructor returns a grid instance. -/
theorem construct_accepts_nonpositive_cellSize :
    SpatialGrid.construct (-1) = Except.ok { cellSize := -1, grid := [] } := rfl

/-- C8 amended: neither the `SpatialGrid` constructor nor any other path
validates the configuration — construction always succeeds — and with a
non-positive cell size the instance degrades silently during simulation:
`getNearby` returns the empty candidate list even for an agent inserted at
the query position itself (`ceil(radius / cellSize)` is negative, so the
bucket scan loops never run). -/
theorem construct_never_fails_and_degrades :
    (∀ c : ℚ, SpatialGrid.construct c = Except.ok { cellSize := c, grid := [] }) ∧
      (SpatialGrid.insert { cellSize := -1, grid := [] } 0 ⟨0, 0, 0⟩).getNearby
        ⟨0, 0, 0⟩ 10 = [] := by
  refine ⟨fun _ => rfl, ?_⟩
  have hc : (⌈(-10 : ℚ)⌉ : ℤ) = -10 := by
    rw [show (-10 : ℚ) = ((-10 : ℤ) : ℚ) by norm_num, Int.ceil_intCast]
  have hr : SpatialGrid.intRange 10 (-10) = [] := by decide
  simp only [SpatialGrid.getNearby, SpatialGrid.insert]
  norm_num [hc, hr]

/-! ## Pairing state machine (`ParticleSystem.js`) -/

/-- Constants of `this.motionSystem` (lines 61–149) used by the pairing state
machine, plus the spatial grid cell size from line 55. -/
def gridCellSize : ℚ := 50

def pairFormRadius : ℚ := 25

def pairKeepRadius : ℚ := 35

def pairMinFrames : ℕ := 480

def pairBreakProb : ℚ := 3 / 10000

def pairCooldown : ℕ := 240

def breakGraceFrames : ℕ := 300

def pairEaseFrames : ℕ := 150

/-- `complementary_map` (lines 6–11); `none` models a key that is absent from
the JS object literal. -/
def complementaryMap : String → Option String
  | "low" => some "mid"
  | "high" => some "mid"
  | "mid" => some "rhythmic"
  | "rhythmic" => some "mid"
  | _ => none

/-- The candidate-category test of line 1131:
`complementary_map[catA] === catB || complementary_map[catB] === catA`. -/
def complementaryOK (catA catB : String) : Bool :=
  complementaryMap catA == some catB || complementaryMap catB == some catA

/-- One entry of `this._pairStates` (fields and defaults as initialized at
lines 603–616).  `breakFrames` and `breakDir` are initialized by the source
but never read afterwards. -/
structure PairState where
  partner : ℤ := -1
  frames : ℕ := 0
  cooldown : ℕ := 0
  breakFrames : ℕ := 0
  breakDir : Q3 := ⟨0, 0, 0⟩
  breakGrace : ℕ := 0
  breakPartner : ℤ := -1
  breakFade : ℕ := 0
  breakHeading : Q3 := ⟨0, 0, 0⟩
  breakEase : ℚ := 1
  breakThisFrame : Bool := false
deriving DecidableEq

instance : Inhabited PairState := ⟨{}⟩

/-- JS array read `this._pairStates[i]`, at indices the source keeps in range
(the state array is grown to at least `peaks.length` before any pass runs). -/
def getSt (l : List PairState) (i : ℕ) : PairState := l.getD i default

/-- Cooldown / break-grace decrement at the top of `_findPairs`
(lines 1048–1055); each loop iteration touches only its own entry. -/
def decrementStep (s : PairState) : PairState :=
  let s1 := if 0 < s.cooldown then { s with cooldown := s.cooldown - 1 } else s
  if 0 < s1.breakGrace then
    let s2 := { s1 with breakGrace := s1.breakGrace - 1 }
    if s2.breakGrace = 0 then { s2 with breakPartner := -1 } else s2
  else s1

def decrementPhase (l : List PairState) : List PairState := l.map decrementStep

/-- One iteration of the distance-break loop of `_findPairs`
(lines 1067–1096), for index `i`.  The source compares the Euclidean
`A.distanceTo(B)` against `pairKeepRadius`; both sides being nonnegative,
this is embedded as the squared comparison. -/
def breakCheckStep (pos : List (Option Q3)) (l : List PairState) (i : ℕ) :
    List PairState :=
  let state := getSt l i
  let partnerIdx := state.partner
  if partnerIdx = -1 then l
  else
    match (if partnerIdx < 0 then none else l[partnerIdx.toNat]?),
        pos.getD i none,
        (if partnerIdx < 0 then none else pos.getD partnerIdx.toNat none) with
    | some partnerState, some A, some B =>
        if pairKeepRadius ^ 2 < distSq3 A B then
          (l.set i { state with
            partner := -1
            frames := 0
            cooldown := pairCooldown
            breakGrace := breakGraceFrames
            breakPartner := partnerIdx }).set partnerIdx.toNat
            { partnerState with
              partner := -1
              frames := 0
              cooldown := pairCooldown
              breakGrace := breakGraceFrames
              breakPartner := (i : ℤ) }
        else l
    | _, _, _ => l

/-- The distance-break loop over `i = 0 .. _pairStates.length - 1`. -/
def breakCheck (pos : List (Option Q3)) (l : List PairState) :
    List PairState :=
  (List.range l.length).foldl (breakCheckStep pos) l

/-- Grid rebuild of `_findPairs` (lines 1057–1064): clear, then insert every
peak that has a center, in index order. -/
def gridInserts (pos : List (Option Q3)) : List (ℕ × Q3) :=
  (List.range pos.length).filterMap fun i =>
    (pos.getD i none).map fun p => (i, p)

def buildGrid (pos : List (Option Q3)) : SpatialGrid :=
  SpatialGrid.insertAll { cellSize := gridCellSize, grid := [] } (gridInserts pos)

/-- One iteration of the best-partner search of `_findPairs`
(lines 1119–1138).  The accumulator is `(bestPartner, bestDistSq)`: the
source's `dist <= bestDist` comparison of nonnegative Euclidean distances is
embedded as the comparison of their squares, with `bestDistSq` starting at
`pairFormRadius ^ 2`. -/
def selectStep (l : List PairState) (pos : List (Option Q3))
    (cats : List (Option String)) (catA : String) (i : ℕ) (A : Q3)
    (acc : ℤ × ℚ) (j : ℕ) : ℤ × ℚ :=
  if i = j then acc
  else
    let stB := getSt l j
    if stB.partner ≠ -1 ∨ 0 < stB.cooldown then acc
    else
      match pos.getD j none with
      | none => acc
      | some B =>
        match cats.getD j none with
        | none => acc
        | some catB =>
          if complementaryOK catA catB then
            let d2 := distSq3 A B
            if d2 ≤ acc.2 then ((j : ℤ), d2) else acc
          else acc

/-- One iteration of the pair-formation loop of `_findPairs`
(lines 1099–1153), for agent `i`.  `cats` is the per-peak category read from
`peakSolids[i].userData.solution` (`actual_category ?? assigned_category`,
collapsed to one optional string).  `newDir` supplies the random unit heading
used when a `_pairDirections` slot is lazily created; `dirs` models that
array with `none` for a missing slot. -/
def formationStep (pos : List (Option Q3)) (cats : List (Option String))
    (newDir : ℕ → Q3) (ld : List PairState × List (Option Q3)) (i : ℕ) :
    List PairState × List (Option Q3) :=
  let l := ld.1
  let dirs := ld.2
  let state := getSt l i
  if state.partner ≠ -1 ∨ 0 < state.cooldown then (l, dirs)
  else
    match pos.getD i none with
    | none => (l, dirs)
    | some A =>
      match cats.getD i none with
      | none => (l, dirs)
      | some catA =>
        let nearby := (buildGrid pos).getNearby A pairFormRadius
        let best := nearby.foldl (selectStep l pos cats catA i A)
          (-1, pairFormRadius ^ 2)
        if best.1 = -1 then (l, dirs)
        else
          let b := best.1.toNat
          let l1 := (l.set i { state with
            partner := best.1
            frames := 0 }).set b
            { getSt l b with
              partner := (i : ℤ)
              frames := 0 }
          let pairIndex := min i b
          let dirs1 :=
            if dirs.getD pairIndex none = none then
              dirs.set pairIndex (some (newDir pairIndex))
            else dirs
          (l1, dirs1)

/-- The pair-formation loop over `i = 0 .. peaks.length - 1`. -/
def formationPass (pos : List (Option Q3)) (cats : List (Option String))
    (newDir : ℕ → Q3) (l : List PairState) (dirs : List (Option Q3)) :
    List PairState × List (Option Q3) :=
  (List.range pos.length).foldl (formationStep pos cats newDir) (l, dirs)

/-- `_findPairs()` (lines 1044–1154): decrement phase, grid rebuild,
distance-break check, then pair formation. -/
def findPairs (pos : List (Option Q3)) (cats : List (Option String))
    (newDir : ℕ → Q3) (l : List PairState) (dirs : List (Option Q3)) :
    List PairState × List (Option Q3) :=
  let l1 := decrementPhase l
  let l2 := breakCheck pos l1
  formationPass pos cats newDir l2 dirs

/-- `_breakPair(indexA, indexB, currentHeading, currentEase)`
(lines 1366–1395).  The member-B update is guarded by `if (stateB)` in the
source, modeled by the lookup `l[indexB]?`. -/
def breakPair (l : List PairState) (indexA indexB : ℕ) (currentHeading : Q3)
    (currentEase : ℚ) : List PairState :=
  let stateA := getSt l indexA
  let l1 := l.set indexA
    { stateA with
      partner := -1
      frames := 0
      cooldown := pairCooldown
      breakGrace := breakGraceFrames
      breakPartner := (indexB : ℤ)
      breakFade := breakGraceFrames
      breakHeading := currentHeading
      breakEase := currentEase
      breakThisFrame := true }
  match l1[indexB]? with
  | none => l1
  | some stateB =>
      l1.set indexB
        { stateB with
          partner := -1
          frames := 0
          cooldown := pairCooldown
          breakGrace := breakGraceFrames
          breakPartner := (indexA : ℤ)
          breakFade := breakGraceFrames
          breakHeading := currentHeading
          breakEase := currentEase
          breakThisFrame := true }

/-- The smoothstep ease-in factor of lines 1321–1322, already evaluated at
the post-increment frame count. -/
def easeOf (frames : ℕ) : ℚ :=
  let p : ℚ := min 1 ((frames : ℚ) / (max 1 ((pairEaseFrames : ℚ))))
  p * p * (3 - 2 * p)

/-- The effects of `_applyPairingForces(index, forceOffset)`
(lines 1222–1364) on `this._pairStates`.  The force contributions written to
`forceOffset` and the shared-heading geometry of lines 1268–1318 (which read
and write only `this._pairDirections`) do not touch the pair states and are
not tracked here; `headingVal index` stands for the heading vector the source
would hand to `_breakPair`, and `draw index` for the `Math.random()` draw of
the probabilistic break test of line 1339. -/
def pairingStateStep (pos : List (Option Q3)) (draw : ℕ → ℚ)
    (headingVal : ℕ → Q3) (l : List PairState) (index : ℕ) :
    List PairState :=
  let state := getSt l index
  if state.partner ≠ -1 then
    let framesNew := state.frames + 1
    let l1 := l.set index { state with frames := framesNew }
    match (if state.partner < 0 then none
           else pos.getD state.partner.toNat none),
        pos.getD index none with
    | some partnerPos, some myPos =>
        if distSq3 partnerPos myPos < (1 / 1000000 : ℚ) ^ 2 then l1
        else if pairMinFrames < framesNew ∧ draw index < pairBreakProb then
          breakPair l1 index state.partner.toNat (headingVal index)
            (easeOf framesNew)
        else l1
    | _, _ => l1
  else
    if 0 < state.breakFade ∧ (1 / 1000000 : ℚ) < state.breakHeading.lengthSq
    then l.set index { state with breakFade := state.breakFade - 1 }
    else l

/-- Which force passes ran for an agent in one movement-loop iteration. -/
structure ForceFlags where
  repulsionApplied : Bool := false
  explorationApplied : Bool := false
deriving DecidableEq

instance : Inhabited ForceFlags := ⟨{}⟩

/-- One iteration of the per-peak movement loop (lines 639–717), restricted
to its effects on `this._pairStates` and to which force passes execute:
`breakThisFrame` is cleared (line 672), `_applyPairingForces` runs (line
675), `_applyRepulsionForces` runs only if no break was flagged (lines
678–680) and never writes a pair state, and `_applyExplorationForces` runs
unconditionally (line 682).  `skip i` models the `continue` guards of lines
642–663 (category filter, stop-all, evolving lock, legacy evolving target);
a missing peak center also skips the iteration. -/
def forcePassStep (pos : List (Option Q3)) (draw : ℕ → ℚ)
    (headingVal : ℕ → Q3) (skip : ℕ → Bool)
    (acc : List PairState × List ForceFlags) (i : ℕ) :
    List PairState × List ForceFlags :=
  let l := acc.1
  let flags := acc.2
  if pos.getD i none = none ∨ skip i then (l, flags)
  else
    let l0 := l.set i { getSt l i with breakThisFrame := false }
    let l1 := pairingStateStep pos draw headingVal l0 i
    let broke := (getSt l1 i).breakThisFrame
    (l1, flags.set i { repulsionApplied := !broke, explorationApplied := true })

/-- The movement loop over `i = 0 .. peaks.length - 1` (lines 639–717),
restricted to pair-state effects and force-pass flags. -/
def forcePass (pos : List (Option Q3)) (draw : ℕ → ℚ) (headingVal : ℕ → Q3)
    (skip : ℕ → Bool) (l : List PairState) :
    List PairState × List ForceFlags :=
  (List.range pos.length).foldl (forcePassStep pos draw headingVal skip)
    (l, List.replicate pos.length {})

/-! ## Array-access lemmas and the pairing invariant -/

theorem getSt_set_self (l : List PairState) (i : ℕ) (a : PairState)
    (h : i < l.length) : getSt (l.set i a) i = a := by
  simp [getSt, List.getD_eq_getElem?_getD, List.getElem?_set_eq_of_lt, h]

theorem getSt_set_ne (l : List PairState) {i j : ℕ} (a : PairState)
    (h : j ≠ i) : getSt (l.set i a) j = getSt l j := by
  simp [getSt, List.getD_eq_getElem?_getD, List.getElem?_set_ne (Ne.symm h)]

theorem getSt_of_ge (l : List PairState) {i : ℕ} (h : l.length ≤ i) :
    getSt l i = default := by
  rw [getSt, List.getD_eq_getElem?_getD, List.getElem?_eq_none h]
  rfl

theorem getElem?_eq_getSt (l : List PairState) {i : ℕ} (h : i < l.length) :
    l[i]? = some (getSt l i) := by
  rw [getSt, List.getD_eq_getElem?_getD, List.getElem?_eq_getElem h]
  rfl

theorem default_partner : (default : PairState).partner = -1 := rfl

/-- Every stored partner link is `-1` or a distinct in-range index. -/
def partnersWF (l : List PairState) : Prop :=
  ∀ i ∈ List.range l.length,
    (getSt l i).partner = -1 ∨
      ∃ j ∈ List.range l.length, j ≠ i ∧ (getSt l i).partner = (j : ℤ)

/-- Pairing links are mutual. -/
def pairSymm (l : List PairState) : Prop :=
  ∀ i ∈ List.range l.length, ∀ j ∈ List.range l.length,
    ((getSt l i).partner = (j : ℤ) → (getSt l j).partner = (i : ℤ))

/-- The pairing-array invariant: links are well-formed and mutual, so
`partner i = j` iff `partner j = i` for in-range `i`, `j`. -/
def pairInv (l : List PairState) : Prop := partnersWF l ∧ pairSymm l

instance partnersWF.decidable (l : List PairState) : Decidable (partnersWF l) := by
  unfold partnersWF
  infer_instance

instance pairSymm.decidable (l : List PairState) : Decidable (pairSymm l) := by
  unfold pairSymm
  infer_instance

instance pairInv.decidable (l : List PairState) : Decidable (pairInv l) := by
  unfold pairInv
  infer_instance

theorem pairSymm_get {l : List PairState} (h : pairSymm l) {i j : ℕ}
    (hi : i < l.length) (hj : j < l.length)
    (hp : (getSt l i).partner = (j : ℤ)) : (getSt l j).partner = (i : ℤ) :=
  h i (List.mem_range.mpr hi) j (List.mem_range.mpr hj) hp

theorem partner_index_lt {l : List PairState} (hwf : partnersWF l) {i j : ℕ}
    (hi : i < l.length) (hp : (getSt l i).partner = (j : ℤ)) :
    j < l.length ∧ j ≠ i := by
  rcases hwf i (List.mem_range.mpr hi) with h1 | ⟨j', hj', hne, he⟩
  · rw [h1] at hp
    omega
  · have : j' = j := by
      rw [he] at hp
      omega
    subst this
    exact ⟨List.mem_range.mp hj', hne⟩

/-- Invariance transfer along a pointwise-equal partner map. -/
theorem pairInv_of_partner_eq {l l' : List PairState}
    (hlen : l'.length = l.length)
    (hp : ∀ m, (getSt l' m).partner = (getSt l m).partner)
    (h : pairInv l) : pairInv l' := by
  obtain ⟨hwf, hsym⟩ := h
  constructor
  · intro i hi
    rw [List.mem_range, hlen] at hi
    rcases hwf i (List.mem_range.mpr hi) with h1 | ⟨j, hj, hne, he⟩
    · exact Or.inl ((hp i).trans h1)
    · exact Or.inr ⟨j, by simpa [hlen] using hj, hne, (hp i).trans he⟩
  · intro i hi j hj hij
    rw [List.mem_range, hlen] at hi hj
    rw [hp] at hij ⊢
    exact hsym i (List.mem_range.mpr hi) j (List.mem_range.mpr hj) hij

/-- Updating one entry without changing its partner preserves the invariant. -/
theorem pairInv_set_same_partner {l : List PairState} {i : ℕ} {a : PairState}
    (ha : a.partner = (getSt l i).partner) (h : pairInv l) :
    pairInv (l.set i a) := by
  refine pairInv_of_partner_eq (by simp) (fun m => ?_) h
  by_cases hm : m = i
  · subst hm
    by_cases hlt : m < l.length
    · rw [getSt_set_self l m a hlt, ha]
    · rw [List.set_eq_of_length_le (by omega)]
  · rw [getSt_set_ne l a hm]

/-- Severing a mutual link (both partners set to `-1`) preserves the
invariant. -/
theorem pairInv_unlink {l : List PairState} {i j : ℕ} {ai aj : PairState}
    (hij : i ≠ j)
    (hpi : (getSt l i).partner = (j : ℤ))
    (hpj : (getSt l j).partner = (i : ℤ))
    (hai : ai.partner = -1) (haj : aj.partner = -1)
    (h : pairInv l) : pairInv ((l.set i ai).set j aj) := by
  obtain ⟨hwf, hsym⟩ := h
  have hlen : ((l.set i ai).set j aj).length = l.length := by simp
  constructor
  · intro m hm
    rw [List.mem_range, hlen] at hm
    by_cases hmj : m = j
    · subst hmj
      rw [getSt_set_self _ m aj (by simpa using hm), haj]
      exact Or.inl rfl
    · rw [getSt_set_ne _ aj hmj]
      by_cases hmi : m = i
      · subst hmi
        rw [getSt_set_self l m ai (by simpa using hm), hai]
        exact Or.inl rfl
      · rw [getSt_set_ne l ai hmi]
        rcases hwf m (List.mem_range.mpr hm) with h1 | ⟨q, hq, hne, he⟩
        · exact Or.inl h1
        · exact Or.inr ⟨q, by simpa using hq, hne, he⟩
  · intro m hm q hq hpq
    rw [List.mem_range, hlen] at hm hq
    by_cases hmj : m = j
    · subst hmj
      rw [getSt_set_self _ m aj (by simpa using hm), haj] at hpq
      omega
    · rw [getSt_set_ne _ aj hmj] at hpq
      by_cases hmi : m = i
      · subst hmi
        rw [getSt_set_self l m ai (by simpa using hm), hai] at hpq
        omega
      · rw [getSt_set_ne l ai hmi] at hpq
        have hm' : m < l.length := hm
        have hq' : q < l.length := hq
        have hsq := hsym m (List.mem_range.mpr hm') q (List.mem_range.mpr hq') hpq
        have hqi : q ≠ i := by
          intro hcon
          subst hcon
          rw [hpi] at hsq
          have : j = m := by omega
          exact hmj this.symm
        have hqj : q ≠ j := by
          intro hcon
          subst hcon
          rw [hpj] at hsq
          have : i = m := by omega
          exact hmi this.symm
        rw [getSt_set_ne _ aj hqj, getSt_set_ne l ai hqi]
        exact hsq

/-- Forming a mutual link between two unpaired agents preserves the
invariant. -/
theorem pairInv_link {l : List PairState} {i j : ℕ} {ai aj : PairState}
    (hij : i ≠ j) (hi : i < l.length) (hj : j < l.length)
    (hai : ai.partner = (j : ℤ)) (haj : aj.partner = (i : ℤ))
    (hpi : (getSt l i).partner = -1) (hpj : (getSt l j).partner = -1)
    (h : pairInv l) : pairInv ((l.set i ai).set j aj) := by
  obtain ⟨hwf, hsym⟩ := h
  have hlen : ((l.set i ai).set j aj).length = l.length := by simp
  constructor
  · intro m hm
    rw [List.mem_range, hlen] at hm
    by_cases hmj : m = j
    · subst hmj
      rw [getSt_set_self _ m aj (by simpa using hm), haj]
      exact Or.inr ⟨i, List.mem_range.mpr (by simpa using hi), Ne.symm (by omega), rfl⟩
    · rw [getSt_set_ne _ aj hmj]
      by_cases hmi : m = i
      · subst hmi
        rw [getSt_set_self l m ai (by simpa using hm), hai]
        exact Or.inr ⟨j, List.mem_range.mpr (by simpa using hj), Ne.symm hij, rfl⟩
      · rw [getSt_set_ne l ai hmi]
        rcases hwf m (List.mem_range.mpr hm) with h1 | ⟨q, hq, hne, he⟩
        · exact Or.inl h1
        · exact Or.inr ⟨q, by simpa using hq, hne, he⟩
  · intro m hm q hq hpq
    rw [List.mem_range, hlen] at hm hq
    by_cases hmj : m = j
    · subst hmj
      rw [getSt_set_self _ m aj (by simpa using hm), haj] at hpq
      have : q = i := by omega
      subst this
      rw [getSt_set_ne _ aj hij, getSt_set_self l q ai hi, hai]
    · rw [getSt_set_ne _ aj hmj] at hpq
      by_cases hmi : m = i
      · subst hmi
        rw [getSt_set_self l m ai (by simpa using hm), hai] at hpq
        have : q = j := by omega
        subst this
        rw [getSt_set_self _ q aj (by simpa using hj), haj]
      · rw [getSt_set_ne l ai hmi] at hpq
        have hsq := hsym m (List.mem_range.mpr hm) q (List.mem_range.mpr hq) hpq
        have hqi : q ≠ i := by
          intro hcon
          subst hcon
          rw [hpi] at hsq
          omega
        have hqj : q ≠ j := by
          intro hcon
          subst hcon
          rw [hpj] at hsq
          omega
        rw [getSt_set_ne _ aj hqj, getSt_set_ne l ai hqi]
        exact hsq

/-- A property preserved by every step of a fold holds of the fold. -/
theorem foldl_inv {α β : Type} {f : α → β → α} {P : α → Prop} :
    ∀ (xs : List β) (a : α), P a → (∀ x ∈ xs, ∀ b, P b → P (f b x)) →
      P (xs.foldl f a)
  | [], _, ha, _ => ha
  | x :: xs, a, ha, hf =>
      foldl_inv xs (f a x) (hf x (List.mem_cons_self x xs) a ha)
        fun y hy b hb => hf y (List.mem_cons_of_mem x hy) b hb

/-! ## Characterizations of the individual loop iterations -/

theorem breakCheckStep_of_unpaired (pos : List (Option Q3))
    (l : List PairState) (k : ℕ) (h : (getSt l k).partner = -1) :
    breakCheckStep pos l k = l := by
  simp [breakCheckStep, h]

theorem breakCheckStep_of_ge (pos : List (Option Q3)) (l : List PairState)
    (k : ℕ) (h : l.length ≤ k) : breakCheckStep pos l k = l :=
  breakCheckStep_of_unpaired pos l k (by rw [getSt_of_ge l h]; rfl)

theorem breakCheckStep_of_noPosA (pos : List (Option Q3))
    (l : List PairState) (k j : ℕ) (hp : (getSt l k).partner = (j : ℤ))
    (hA : pos.getD k none = none) : breakCheckStep pos l k = l := by
  have hne : ((j : ℤ)) ≠ -1 := by omega
  simp only [breakCheckStep, hp, hne, hA]
  simp

theorem breakCheckStep_of_noPosB (pos : List (Option Q3))
    (l : List PairState) (k j : ℕ) (hp : (getSt l k).partner = (j : ℤ))
    (hB : pos.getD j none = none) : breakCheckStep pos l k = l := by
  have hne : ((j : ℤ)) ≠ -1 := by omega
  have hnneg : ¬((j : ℤ) < 0) := by omega
  have htn : ((j : ℤ)).toNat = j := by omega
  simp only [breakCheckStep, hp, hne, hnneg, htn, hB]
  simp

theorem breakCheckStep_of_noFire (pos : List (Option Q3))
    (l : List PairState) (k j : ℕ) (hp : (getSt l k).partner = (j : ℤ))
    (hj : j < l.length) (A B : Q3) (hA : pos.getD k none = some A)
    (hB : pos.getD j none = some B)
    (hd : ¬(pairKeepRadius ^ 2 < distSq3 A B)) :
    breakCheckStep pos l k = l := by
  have hne : ((j : ℤ)) ≠ -1 := by omega
  have hnneg : ¬((j : ℤ) < 0) := by omega
  have htn : ((j : ℤ)).toNat = j := by omega
  simp only [breakCheckStep, hp, hne, hnneg, htn,
    getElem?_eq_getSt l hj, hA, hB, hd]
  simp [hd]

/-- The broken version of a state entry as written by the distance-break
branch of `_findPairs` (lines 1079–1094). -/
def distBroken (s : PairState) (other : ℤ) : PairState :=
  { s with
    partner := -1
    frames := 0
    cooldown := pairCooldown
    breakGrace := breakGraceFrames
    breakPartner := other }

theorem breakCheckStep_of_fire (pos : List (Option Q3)) (l : List PairState)
    (k j : ℕ) (hp : (getSt l k).partner = (j : ℤ)) (hj : j < l.length)
    (A B : Q3) (hA : pos.getD k none = some A) (hB : pos.getD j none = some B)
    (hd : pairKeepRadius ^ 2 < distSq3 A B) :
    breakCheckStep pos l k =
      (l.set k (distBroken (getSt l k) (j : ℤ))).set j
        (distBroken (getSt l j) (k : ℤ)) := by
  have hne : ((j : ℤ)) ≠ -1 := by omega
  have hnneg : ¬((j : ℤ) < 0) := by omega
  have htn : ((j : ℤ)).toNat = j := by omega
  simp only [breakCheckStep, hp, hne, hnneg, htn,
    getElem?_eq_getSt l hj, hA, hB, hd, if_true, distBroken]
  simp
  intro hcon
  exact absurd hd (by simpa using hcon)

theorem pairInv_breakCheckStep (pos : List (Option Q3)) (l : List PairState)
    (k : ℕ) (h : pairInv l) : pairInv (breakCheckStep pos l k) := by
  by_cases hk : k < l.length
  · by_cases hpk : (getSt l k).partner = -1
    · rw [breakCheckStep_of_unpaired pos l k hpk]
      exact h
    · obtain ⟨j, hjmem, hjk, hpj⟩ :=
        (h.1 k (List.mem_range.mpr hk)).resolve_left hpk
      have hjlt : j < l.length := List.mem_range.mp hjmem
      cases hA : pos.getD k none with
      | none => rw [breakCheckStep_of_noPosA pos l k j hpj hA]; exact h
      | some A =>
        cases hB : pos.getD j none with
        | none => rw [breakCheckStep_of_noPosB pos l k j hpj hB]; exact h
        | some B =>
          by_cases hd : pairKeepRadius ^ 2 < distSq3 A B
          · rw [breakCheckStep_of_fire pos l k j hpj hjlt A B hA hB hd]
            exact pairInv_unlink hjk.symm hpj
              (pairSymm_get h.2 hk hjlt hpj) rfl rfl h
          · rw [breakCheckStep_of_noFire pos l k j hpj hjlt A B hA hB hd]
            exact h
  · rw [breakCheckStep_of_ge pos l k (by omega)]
    exact h

theorem length_breakCheckStep (pos : List (Option Q3)) (l : List PairState)
    (k : ℕ) : (breakCheckStep pos l k).length = l.length := by
  unfold breakCheckStep
  dsimp only
  split
  · rfl
  · split
    · split
      · simp
      · rfl
    · rfl

theorem pairInv_breakCheck (pos : List (Option Q3)) (l : List PairState)
    (h : pairInv l) : pairInv (breakCheck pos l) :=
  foldl_inv _ l h fun k _ b hb => pairInv_breakCheckStep pos b k hb

theorem decrementStep_partner (s : PairState) :
    (decrementStep s).partner = s.partner := by
  unfold decrementStep
  dsimp only
  split <;> split <;> first | rfl | split <;> rfl

theorem getSt_decrementPhase (l : List PairState) (m : ℕ) (h : m < l.length) :
    getSt (decrementPhase l) m = decrementStep (getSt l m) := by
  simp [decrementPhase, getSt, List.getD_eq_getElem?_getD,
    List.getElem?_map, List.getElem?_eq_getElem h]

theorem length_decrementPhase (l : List PairState) :
    (decrementPhase l).length = l.length := by
  simp [decrementPhase]

theorem pairInv_decrementPhase {l : List PairState} (h : pairInv l) :
    pairInv (decrementPhase l) := by
  refine pairInv_of_partner_eq (length_decrementPhase l) (fun m => ?_) h
  by_cases hm : m < l.length
  · rw [getSt_decrementPhase l m hm, decrementStep_partner]
  · rw [getSt_of_ge _ (by rw [length_decrementPhase]; omega),
      getSt_of_ge _ (by omega)]

/-! ## The best-partner selection fold -/

/-- The eligibility test a candidate `j` passes in the selection loop of
`_findPairs` (lines 1120–1131): not the searching agent itself, unpaired,
no cooldown, has a center and a category complementary to `catA`. -/
def selEligB (l : List PairState) (pos : List (Option Q3))
    (cats : List (Option String)) (catA : String) (i j : ℕ) : Bool :=
  !(i == j) && ((getSt l j).partner == -1) && ((getSt l j).cooldown == 0) &&
    (pos.getD j none).isSome &&
    (match cats.getD j none with
     | some catB => complementaryOK catA catB
     | none => false)

/-- Squared distance from the searching agent's center `A` to candidate `j`'s
center (0 when `j` has none; only read for candidates that have one). -/
def candDistSq (pos : List (Option Q3)) (A : Q3) (j : ℕ) : ℚ :=
  match pos.getD j none with
  | some B => distSq3 A B
  | none => 0

theorem selectStep_eq (l : List PairState) (pos : List (Option Q3))
    (cats : List (Option String)) (catA : String) (i : ℕ) (A : Q3)
    (acc : ℤ × ℚ) (j : ℕ) :
    selectStep l pos cats catA i A acc j =
      if selEligB l pos cats catA i j then
        (if candDistSq pos A j ≤ acc.2 then ((j : ℤ), candDistSq pos A j)
         else acc)
      else acc := by
  by_cases h1 : i = j
  · simp [selectStep, selEligB, h1]
  · by_cases h2 : (getSt l j).partner = -1
    · by_cases h3 : (getSt l j).cooldown = 0
      · cases hB : pos.getD j none with
        | none =>
          have hB2 := hB
          rw [List.getD_eq_getElem?_getD] at hB2
          simp [selectStep, selEligB, candDistSq, h1, h2, h3, hB, hB2]
        | some B =>
          have hB2 := hB
          rw [List.getD_eq_getElem?_getD] at hB2
          cases hC : cats.getD j none with
          | none =>
            have hC2 := hC
            rw [List.getD_eq_getElem?_getD] at hC2
            simp [selectStep, selEligB, candDistSq, h1, h2, h3, hB, hB2, hC, hC2]
          | some catB =>
            have hC2 := hC
            rw [List.getD_eq_getElem?_getD] at hC2
            by_cases h4 : complementaryOK catA catB = true
            · simp [selectStep, selEligB, candDistSq, h1, h2, h3, hB, hB2,
                hC, hC2, h4]
            · simp [selectStep, selEligB, candDistSq, h1, h2, h3, hB, hB2,
                hC, hC2, h4]
      · simp [selectStep, selEligB, h1, h2, h3, Nat.pos_of_ne_zero h3]
    · simp [selectStep, selEligB, h1, h2]

theorem selectFold_snd_mono (l : List PairState) (pos : List (Option Q3))
    (cats : List (Option String)) (catA : String) (i : ℕ) (A : Q3) :
    ∀ (cs : List ℕ) (acc : ℤ × ℚ),
      (cs.foldl (selectStep l pos cats catA i A) acc).2 ≤ acc.2 := by
  intro cs
  induction cs with
  | nil => intro acc; exact le_refl _
  | cons x xs ih =>
    intro acc
    rw [List.foldl_cons]
    refine le_trans (ih _) ?_
    rw [selectStep_eq]
    split
    · split
      · simpa
      · exact le_refl _
    · exact le_refl _

theorem selectFold_min (l : List PairState) (pos : List (Option Q3))
    (cats : List (Option String)) (catA : String) (i : ℕ) (A : Q3) :
    ∀ (cs : List ℕ) (acc : ℤ × ℚ) (k : ℕ), k ∈ cs →
      selEligB l pos cats catA i k = true →
      (cs.foldl (selectStep l pos cats catA i A) acc).2 ≤ candDistSq pos A k := by
  intro cs
  induction cs with
  | nil => intro acc k hk; cases hk
  | cons x xs ih =>
    intro acc k hk he
    rw [List.foldl_cons]
    rcases List.mem_cons.mp hk with rfl | hk'
    · refine le_trans (selectFold_snd_mono l pos cats catA i A xs _) ?_
      rw [selectStep_eq, if_pos he]
      split
      · exact le_refl _
      · next hcon => exact le_of_lt (not_le.mp hcon)
    · exact ih _ k hk' he

theorem selectFold_result (l : List PairState) (pos : List (Option Q3))
    (cats : List (Option String)) (catA : String) (i : ℕ) (A : Q3) :
    ∀ (cs : List ℕ) (acc : ℤ × ℚ),
      cs.foldl (selectStep l pos cats catA i A) acc = acc ∨
        ∃ j ∈ cs, selEligB l pos cats catA i j = true ∧
          cs.foldl (selectStep l pos cats catA i A) acc =
            ((j : ℤ), candDistSq pos A j) := by
  intro cs
  induction cs with
  | nil => intro acc; exact Or.inl rfl
  | cons x xs ih =>
    intro acc
    rw [List.foldl_cons]
    by_cases he : selEligB l pos cats catA i x = true
    · by_cases hd : candDistSq pos A x ≤ acc.2
      · have hstep : selectStep l pos cats catA i A acc x =
            ((x : ℤ), candDistSq pos A x) := by
          rw [selectStep_eq, if_pos he, if_pos hd]
        rw [hstep]
        rcases ih ((x : ℤ), candDistSq pos A x) with h1 | ⟨j, hj, hje, hjr⟩
        · exact Or.inr ⟨x, List.mem_cons_self x xs, he, h1⟩
        · exact Or.inr ⟨j, List.mem_cons_of_mem x hj, hje, hjr⟩
      · have hstep : selectStep l pos cats catA i A acc x = acc := by
          rw [selectStep_eq, if_pos he, if_neg hd]
        rw [hstep]
        rcases ih acc with h1 | ⟨j, hj, hje, hjr⟩
        · exact Or.inl h1
        · exact Or.inr ⟨j, List.mem_cons_of_mem x hj, hje, hjr⟩
    · have hstep : selectStep l pos cats catA i A acc x = acc := by
        rw [selectStep_eq, if_neg he]
      rw [hstep]
      rcases ih acc with h1 | ⟨j, hj, hje, hjr⟩
      · exact Or.inl h1
      · exact Or.inr ⟨j, List.mem_cons_of_mem x hj, hje, hjr⟩

theorem selectFold_no_update (l : List PairState) (pos : List (Option Q3))
    (cats : List (Option String)) (catA : String) (i : ℕ) (A : Q3) :
    ∀ (cs : List ℕ) (acc : ℤ × ℚ),
      (∀ k ∈ cs, selEligB l pos cats catA i k = true →
        ¬(candDistSq pos A k ≤ acc.2)) →
      cs.foldl (selectStep l pos cats catA i A) acc = acc := by
  intro cs
  induction cs with
  | nil => intro acc _; rfl
  | cons x xs ih =>
    intro acc hno
    rw [List.foldl_cons]
    have hstep : selectStep l pos cats catA i A acc x = acc := by
      rw [selectStep_eq]
      by_cases he : selEligB l pos cats catA i x = true
      · rw [if_pos he, if_neg (hno x (List.mem_cons_self x xs) he)]
      · rw [if_neg he]
    rw [hstep]
    exact ih acc fun k hk => hno k (List.mem_cons_of_mem x hk)

theorem selectFold_lower (l : List PairState) (pos : List (Option Q3))
    (cats : List (Option String)) (catA : String) (i : ℕ) (A : Q3) :
    ∀ (cs : List ℕ) (acc : ℤ × ℚ) (x : ℚ), x ≤ acc.2 →
      (∀ k ∈ cs, selEligB l pos cats catA i k = true →
        x ≤ candDistSq pos A k) →
      x ≤ (cs.foldl (selectStep l pos cats catA i A) acc).2 := by
  intro cs
  induction cs with
  | nil => intro acc x hx _; exact hx
  | cons y xs ih =>
    intro acc x hx hall
    rw [List.foldl_cons]
    refine ih _ x ?_ fun k hk => hall k (List.mem_cons_of_mem y hk)
    rw [selectStep_eq]
    split
    · split
      · exact hall y (List.mem_cons_self y xs) (by assumption)
      · exact hx
    · exact hx

theorem selectFold_fst_stable (l : List PairState) (pos : List (Option Q3))
    (cats : List (Option String)) (catA : String) (i : ℕ) (A : Q3) :
    ∀ (cs : List ℕ) (acc : ℤ × ℚ), acc.1 ≠ -1 →
      (cs.foldl (selectStep l pos cats catA i A) acc).1 ≠ -1 := by
  intro cs
  induction cs with
  | nil => intro acc h; exact h
  | cons x xs ih =>
    intro acc h
    rw [List.foldl_cons]
    refine ih _ ?_
    rw [selectStep_eq]
    split
    · split
      · show ((x : ℤ)) ≠ -1
        omega
      · exact h
    · exact h

theorem selectFold_hit (l : List PairState) (pos : List (Option Q3))
    (cats : List (Option String)) (catA : String) (i : ℕ) (A : Q3) :
    ∀ (cs : List ℕ) (acc : ℤ × ℚ) (k : ℕ), k ∈ cs →
      selEligB l pos cats catA i k = true → candDistSq pos A k ≤ acc.2 →
      (cs.foldl (selectStep l pos cats catA i A) acc).1 ≠ -1 := by
  intro cs
  induction cs with
  | nil => intro acc k hk; cases hk
  | cons x xs ih =>
    intro acc k hk he hd
    rw [List.foldl_cons]
    by_cases hex : selEligB l pos cats catA i x = true
    · by_cases hdx : candDistSq pos A x ≤ acc.2
      · have hstep : selectStep l pos cats catA i A acc x =
            ((x : ℤ), candDistSq pos A x) := by
          rw [selectStep_eq, if_pos hex, if_pos hdx]
        rw [hstep]
        refine selectFold_fst_stable l pos cats catA i A xs _ ?_
        show ((x : ℤ)) ≠ -1
        omega
      · have hstep : selectStep l pos cats catA i A acc x = acc := by
          rw [selectStep_eq, if_pos hex, if_neg hdx]
        rw [hstep]
        rcases List.mem_cons.mp hk with rfl | hk'
        · exact absurd hd hdx
        · exact ih acc k hk' he hd
    · have hstep : selectStep l pos cats catA i A acc x = acc := by
        rw [selectStep_eq, if_neg hex]
      rw [hstep]
      rcases List.mem_cons.mp hk with rfl | hk'
      · exact absurd he hex
      · exact ih acc k hk' he hd

/-! ## Formation pass -/

theorem mem_bucketAdd_elim (grid : List ((ℤ × ℤ) × List ℕ))
    (key key' : ℤ × ℤ) (j : ℕ) {i : ℕ}
    (h : i ∈ (SpatialGrid.lookupBucket (SpatialGrid.bucketAdd grid key' j)
      key).getD []) :
    i ∈ (SpatialGrid.lookupBucket grid key).getD [] ∨ i = j := by
  by_cases hk : key = key'
  · subst hk
    rw [SpatialGrid.lookupBucket_bucketAdd_self] at h
    simpa using h
  · rw [SpatialGrid.lookupBucket_bucketAdd_ne _ _ hk] at h
    exact Or.inl h

theorem bucket_sub_insertAll (g : SpatialGrid) (as : List (ℕ × Q3))
    (key : ℤ × ℤ) {i : ℕ}
    (h : i ∈ (SpatialGrid.lookupBucket (g.insertAll as).grid key).getD []) :
    i ∈ (SpatialGrid.lookupBucket g.grid key).getD [] ∨ ∃ p, (i, p) ∈ as := by
  induction as generalizing g with
  | nil => exact Or.inl h
  | cons a rest ih =>
    rcases ih (g.insert a.1 a.2) h with h1 | ⟨p, hp⟩
    · rcases mem_bucketAdd_elim g.grid key _ a.1 h1 with h2 | h2
      · exact Or.inl h2
      · exact Or.inr ⟨a.2, by rw [h2]; exact List.mem_cons_self a rest⟩
    · exact Or.inr ⟨p, List.mem_cons_of_mem a hp⟩

theorem mem_getNearby_elim (g : SpatialGrid) (q : Q3) (r : ℚ) {i : ℕ}
    (h : i ∈ g.getNearby q r) :
    ∃ key, i ∈ (SpatialGrid.lookupBucket g.grid key).getD [] := by
  unfold SpatialGrid.getNearby at h
  simp only [List.mem_flatMap] at h
  obtain ⟨dx, _, dz, _, hmem⟩ := h
  exact ⟨_, hmem⟩

theorem mem_gridInserts {pos : List (Option Q3)} {j : ℕ} {p : Q3}
    (h : (j, p) ∈ gridInserts pos) :
    j < pos.length ∧ pos.getD j none = some p := by
  unfold gridInserts at h
  rw [List.mem_filterMap] at h
  obtain ⟨m, hm, he⟩ := h
  cases hq : pos.getD m none with
  | none => rw [hq] at he; cases he
  | some q =>
    rw [hq] at he
    simp at he
    obtain ⟨h1, h2⟩ := he
    subst h1
    subst h2
    exact ⟨List.mem_range.mp hm, hq⟩

theorem mem_gridInserts_of {pos : List (Option Q3)} {j : ℕ} {p : Q3}
    (h : pos.getD j none = some p) : (j, p) ∈ gridInserts pos := by
  have hj : j < pos.length := by
    by_contra hc
    rw [List.getD_eq_getElem?_getD, List.getElem?_eq_none (by omega)] at h
    cases h
  unfold gridInserts
  rw [List.mem_filterMap]
  exact ⟨j, List.mem_range.mpr hj, by rw [h]; rfl⟩

/-- Every index the formation query returns was inserted, hence is a live
peak index. -/
theorem mem_getNearby_buildGrid_lt (pos : List (Option Q3)) (A : Q3) (r : ℚ)
    {j : ℕ} (h : j ∈ (buildGrid pos).getNearby A r) : j < pos.length := by
  obtain ⟨key, hb⟩ := mem_getNearby_elim _ A r h
  rcases bucket_sub_insertAll _ (gridInserts pos) key hb with h0 | ⟨p, hp⟩
  · cases h0
  · exact (mem_gridInserts hp).1

/-- Conversely, every live peak whose center is horizontally within the
formation radius of the query point is in the query result. -/
theorem mem_nearby_of_close (pos : List (Option Q3)) (A : Q3) {m : ℕ}
    {Pm : Q3} (hm : pos.getD m none = some Pm)
    (hd : (Pm.x - A.x) ^ 2 + (Pm.z - A.z) ^ 2 ≤ pairFormRadius ^ 2) :
    m ∈ (buildGrid pos).getNearby A pairFormRadius :=
  mem_getNearby_insertAll gridCellSize (by norm_num [gridCellSize]) _ A
    pairFormRadius (by norm_num [pairFormRadius]) m Pm (mem_gridInserts_of hm) hd

theorem selEligB_props {l : List PairState} {pos : List (Option Q3)}
    {cats : List (Option String)} {catA : String} {i j : ℕ}
    (h : selEligB l pos cats catA i j = true) :
    i ≠ j ∧ (getSt l j).partner = -1 ∧ (getSt l j).cooldown = 0 := by
  unfold selEligB at h
  simp only [Bool.and_eq_true, Bool.not_eq_true', beq_eq_false_iff_ne,
    beq_iff_eq] at h
  exact ⟨h.1.1.1.1, h.1.1.1.2, h.1.1.2⟩

theorem formationStep_of_ineligible (pos : List (Option Q3))
    (cats : List (Option String)) (newDir : ℕ → Q3) (l : List PairState)
    (dirs : List (Option Q3)) (i : ℕ)
    (h : (getSt l i).partner ≠ -1 ∨ 0 < (getSt l i).cooldown) :
    formationStep pos cats newDir (l, dirs) i = (l, dirs) := by
  unfold formationStep
  rw [if_pos h]

theorem formationStep_of_noPos (pos : List (Option Q3))
    (cats : List (Option String)) (newDir : ℕ → Q3) (l : List PairState)
    (dirs : List (Option Q3)) (i : ℕ)
    (h : ¬((getSt l i).partner ≠ -1 ∨ 0 < (getSt l i).cooldown))
    (hA : pos.getD i none = none) :
    formationStep pos cats newDir (l, dirs) i = (l, dirs) := by
  unfold formationStep
  rw [if_neg h, hA]

theorem formationStep_of_noCat (pos : List (Option Q3))
    (cats : List (Option String)) (newDir : ℕ → Q3) (l : List PairState)
    (dirs : List (Option Q3)) (i : ℕ)
    (h : ¬((getSt l i).partner ≠ -1 ∨ 0 < (getSt l i).cooldown)) (A : Q3)
    (hA : pos.getD i none = some A) (hcat : cats.getD i none = none) :
    formationStep pos cats newDir (l, dirs) i = (l, dirs) := by
  unfold formationStep
  rw [if_neg h, hA]
  dsimp only
  rw [hcat]

theorem formationStep_of_noBest (pos : List (Option Q3))
    (cats : List (Option String)) (newDir : ℕ → Q3) (l : List PairState)
    (dirs : List (Option Q3)) (i : ℕ)
    (h : ¬((getSt l i).partner ≠ -1 ∨ 0 < (getSt l i).cooldown)) (A : Q3)
    (hA : pos.getD i none = some A) (catA : String)
    (hcat : cats.getD i none = some catA) (d2 : ℚ)
    (hsel : ((buildGrid pos).getNearby A pairFormRadius).foldl
      (selectStep l pos cats catA i A) (-1, pairFormRadius ^ 2) = (-1, d2)) :
    formationStep pos cats newDir (l, dirs) i = (l, dirs) := by
  unfold formationStep
  rw [if_neg h, hA]
  dsimp only
  rw [hcat]
  dsimp only
  rw [hsel]
  simp

theorem formationStep_of_best (pos : List (Option Q3))
    (cats : List (Option String)) (newDir : ℕ → Q3) (l : List PairState)
    (dirs : List (Option Q3)) (i : ℕ)
    (h : ¬((getSt l i).partner ≠ -1 ∨ 0 < (getSt l i).cooldown)) (A : Q3)
    (hA : pos.getD i none = some A) (catA : String)
    (hcat : cats.getD i none = some catA) (b : ℕ) (d2 : ℚ)
    (hsel : ((buildGrid pos).getNearby A pairFormRadius).foldl
      (selectStep l pos cats catA i A) (-1, pairFormRadius ^ 2) =
        ((b : ℤ), d2)) :
    formationStep pos cats newDir (l, dirs) i =
      ((l.set i { getSt l i with
          partner := (b : ℤ)
          frames := 0 }).set b
        { getSt l b with
          partner := (i : ℤ)
          frames := 0 },
       if dirs.getD (min i b) none = none then
         dirs.set (min i b) (some (newDir (min i b)))
       else dirs) := by
  have hne : ((b : ℤ)) ≠ -1 := by omega
  have htn : ((b : ℤ)).toNat = b := by omega
  unfold formationStep
  rw [if_neg h, hA]
  dsimp only
  rw [hcat]
  dsimp only
  rw [hsel]
  dsimp only
  rw [if_neg hne, htn]

theorem pairInv_formationStep (pos : List (Option Q3))
    (cats : List (Option String)) (newDir : ℕ → Q3) (l : List PairState)
    (dirs : List (Option Q3)) (i : ℕ) (hlen : pos.length ≤ l.length)
    (h : pairInv l) : pairInv (formationStep pos cats newDir (l, dirs) i).1 := by
  by_cases helig : (getSt l i).partner ≠ -1 ∨ 0 < (getSt l i).cooldown
  · rw [formationStep_of_ineligible pos cats newDir l dirs i helig]
    exact h
  · cases hA : pos.getD i none with
    | none =>
      rw [formationStep_of_noPos pos cats newDir l dirs i helig hA]
      exact h
    | some A =>
      cases hcat : cats.getD i none with
      | none =>
        rw [formationStep_of_noCat pos cats newDir l dirs i helig A hA hcat]
        exact h
      | some catA =>
        rcases selectFold_result l pos cats catA i A
            ((buildGrid pos).getNearby A pairFormRadius)
            (-1, pairFormRadius ^ 2) with hr | ⟨j, hjmem, hje, hjr⟩
        · rw [formationStep_of_noBest pos cats newDir l dirs i helig A hA catA
            hcat (pairFormRadius ^ 2) hr]
          exact h
        · rw [formationStep_of_best pos cats newDir l dirs i helig A hA catA
            hcat j (candDistSq pos A j) hjr]
          obtain ⟨hij, hpj, _⟩ := selEligB_props hje
          have hilt : i < l.length := by
            have : i < pos.length := by
              by_contra hc
              rw [List.getD_eq_getElem?_getD,
                List.getElem?_eq_none (by omega)] at hA
              cases hA
            omega
          have hjlt : j < l.length := by
            have := mem_getNearby_buildGrid_lt pos A pairFormRadius hjmem
            omega
          have hpi : (getSt l i).partner = -1 := by
            by_contra hc
            exact helig (Or.inl hc)
          exact pairInv_link hij hilt hjlt rfl rfl hpi hpj h

theorem length_formationStep (pos : List (Option Q3))
    (cats : List (Option String)) (newDir : ℕ → Q3) (l : List PairState)
    (dirs : List (Option Q3)) (i : ℕ) :
    (formationStep pos cats newDir (l, dirs) i).1.length = l.length := by
  unfold formationStep
  dsimp only
  split
  · rfl
  · split
    · rfl
    · split
      · rfl
      · split
        · rfl
        · simp

theorem pairInv_formationPass (pos : List (Option Q3))
    (cats : List (Option String)) (newDir : ℕ → Q3) (l : List PairState)
    (dirs : List (Option Q3)) (hlen : pos.length ≤ l.length)
    (h : pairInv l) : pairInv (formationPass pos cats newDir l dirs).1 := by
  have : ∀ b : List PairState × List (Option Q3),
      pairInv b.1 ∧ pos.length ≤ b.1.length →
      pairInv (formationPass pos cats newDir b.1 b.2).1 ∧ True := by
    intro b hb
    exact ⟨(foldl_inv (P := fun a : List PairState × List (Option Q3) =>
      pairInv a.1 ∧ pos.length ≤ a.1.length) _ b hb
      fun k _ c hc => by
        obtain ⟨hc1, hc2⟩ := hc
        constructor
        · exact pairInv_formationStep pos cats newDir c.1 c.2 k hc2 hc1
        · rw [length_formationStep]
          exact hc2).1, trivial⟩
  exact ((this (l, dirs)) ⟨h, hlen⟩).1

theorem length_breakCheck (pos : List (Option Q3)) (l : List PairState) :
    (breakCheck pos l).length = l.length :=
  foldl_inv (P := fun a : List PairState => a.length = l.length) _ l rfl
    fun k _ b hb => by
      show (breakCheckStep pos b k).length = l.length
      rw [length_breakCheckStep, hb]

theorem pairInv_findPairs (pos : List (Option Q3))
    (cats : List (Option String)) (newDir : ℕ → Q3) (l : List PairState)
    (dirs : List (Option Q3)) (hlen : pos.length ≤ l.length)
    (h : pairInv l) : pairInv (findPairs pos cats newDir l dirs).1 := by
  unfold findPairs
  dsimp only
  refine pairInv_formationPass pos cats newDir _ dirs ?_
    (pairInv_breakCheck pos _ (pairInv_decrementPhase h))
  rw [length_breakCheck, length_decrementPhase]
  exact hlen

/-! ## Force pass: probabilistic break and flags -/

/-- The broken version of a state entry as written by `_breakPair`
(lines 1370–1393). -/
def probBroken (s : PairState) (other : ℤ) (hd : Q3) (ease : ℚ) : PairState :=
  { s with
    partner := -1
    frames := 0
    cooldown := pairCooldown
    breakGrace := breakGraceFrames
    breakPartner := other
    breakFade := breakGraceFrames
    breakHeading := hd
    breakEase := ease
    breakThisFrame := true }

theorem breakPair_eq (l : List PairState) (indexA indexB : ℕ) (hd : Q3)
    (ease : ℚ) (hB : indexB < l.length) (hne : indexB ≠ indexA) :
    breakPair l indexA indexB hd ease =
      (l.set indexA (probBroken (getSt l indexA) (indexB : ℤ) hd ease)).set
        indexB (probBroken (getSt l indexB) (indexA : ℤ) hd ease) := by
  unfold breakPair
  dsimp only
  rw [getElem?_eq_getSt _ (by simpa using hB), getSt_set_ne l _ hne]
  rfl

theorem length_breakPair (l : List PairState) (indexA indexB : ℕ) (hd : Q3)
    (ease : ℚ) : (breakPair l indexA indexB hd ease).length = l.length := by
  unfold breakPair
  dsimp only
  split <;> simp

theorem pairInv_breakPair (l : List PairState) (indexA indexB : ℕ) (hd : Q3)
    (ease : ℚ) (hA : indexA < l.length) (hB : indexB < l.length)
    (hne : indexB ≠ indexA)
    (hmut : (getSt l indexA).partner = (indexB : ℤ))
    (h : pairInv l) : pairInv (breakPair l indexA indexB hd ease) := by
  rw [breakPair_eq l indexA indexB hd ease hB hne]
  exact pairInv_unlink (Ne.symm hne) hmut (pairSymm_get h.2 hA hB hmut) rfl rfl h

theorem pairingStateStep_of_unpaired (pos : List (Option Q3)) (draw : ℕ → ℚ)
    (headingVal : ℕ → Q3) (l : List PairState) (index : ℕ)
    (hp : (getSt l index).partner = -1) :
    pairingStateStep pos draw headingVal l index =
      (if 0 < (getSt l index).breakFade ∧
          (1 / 1000000 : ℚ) < (getSt l index).breakHeading.lengthSq then
        l.set index { getSt l index with
          breakFade := (getSt l index).breakFade - 1 }
       else l) := by
  unfold pairingStateStep
  dsimp only
  rw [if_neg (by simpa using hp)]

theorem pairingStateStep_of_paired (pos : List (Option Q3)) (draw : ℕ → ℚ)
    (headingVal : ℕ → Q3) (l : List PairState) (index : ℕ) (j : ℕ)
    (hp : (getSt l index).partner = (j : ℤ)) :
    pairingStateStep pos draw headingVal l index =
      (let framesNew := (getSt l index).frames + 1
       let l1 := l.set index { getSt l index with frames := framesNew }
       match pos.getD j none, pos.getD index none with
       | some partnerPos, some myPos =>
           if distSq3 partnerPos myPos < (1 / 1000000 : ℚ) ^ 2 then l1
           else if pairMinFrames < framesNew ∧ draw index < pairBreakProb then
             breakPair l1 index j (headingVal index) (easeOf framesNew)
           else l1
       | _, _ => l1) := by
  have hne : (getSt l index).partner ≠ -1 := by rw [hp]; omega
  have hnneg : ¬((getSt l index).partner < 0) := by rw [hp]; omega
  have htn : (getSt l index).partner.toNat = j := by rw [hp]; omega
  unfold pairingStateStep
  dsimp only
  rw [if_pos hne, if_neg hnneg, htn, hp]

theorem length_pairingStateStep (pos : List (Option Q3)) (draw : ℕ → ℚ)
    (headingVal : ℕ → Q3) (l : List PairState) (index : ℕ) :
    (pairingStateStep pos draw headingVal l index).length = l.length := by
  unfold pairingStateStep
  dsimp only
  split
  · split
    · split
      · simp
      · split
        · simp [length_breakPair]
        · simp
    · simp
  · split
    · simp
    · rfl

theorem pairInv_pairingStateStep (pos : List (Option Q3)) (draw : ℕ → ℚ)
    (headingVal : ℕ → Q3) (l : List PairState) (index : ℕ)
    (h : pairInv l) : pairInv (pairingStateStep pos draw headingVal l index) := by
  by_cases hp : (getSt l index).partner = -1
  · rw [pairingStateStep_of_unpaired pos draw headingVal l index hp]
    split
    · exact pairInv_set_same_partner rfl h
    · exact h
  · have hlt : index < l.length := by
      by_contra hc
      rw [getSt_of_ge l (by omega)] at hp
      exact hp rfl
    obtain ⟨j, hjmem, hjne, hpj⟩ :=
      (h.1 index (List.mem_range.mpr hlt)).resolve_left hp
    have hjlt : j < l.length := List.mem_range.mp hjmem
    rw [pairingStateStep_of_paired pos draw headingVal l index j hpj]
    have hinv1 : pairInv (l.set index { getSt l index with
        frames := (getSt l index).frames + 1 }) :=
      pairInv_set_same_partner rfl h
    have hlen1 : (l.set index { getSt l index with
        frames := (getSt l index).frames + 1 }).length = l.length := by simp
    dsimp only
    split
    · split
      · exact hinv1
      · split
        · refine pairInv_breakPair _ index j _ _
            (by simp only [List.length_set]; omega)
            (by simp only [List.length_set]; omega) hjne ?_ hinv1
          rw [getSt_set_self l index _ hlt, hpj]
        · exact hinv1
    · exact hinv1

theorem length_forcePassStep_fst (pos : List (Option Q3)) (draw : ℕ → ℚ)
    (headingVal : ℕ → Q3) (skip : ℕ → Bool)
    (acc : List PairState × List ForceFlags) (i : ℕ) :
    (forcePassStep pos draw headingVal skip acc i).1.length = acc.1.length := by
  unfold forcePassStep
  dsimp only
  split
  · rfl
  · rw [length_pairingStateStep]
    simp

theorem pairInv_forcePassStep (pos : List (Option Q3)) (draw : ℕ → ℚ)
    (headingVal : ℕ → Q3) (skip : ℕ → Bool)
    (acc : List PairState × List ForceFlags) (i : ℕ) (h : pairInv acc.1) :
    pairInv (forcePassStep pos draw headingVal skip acc i).1 := by
  unfold forcePassStep
  dsimp only
  split
  · exact h
  · refine pairInv_pairingStateStep pos draw headingVal _ i ?_
    exact pairInv_set_same_partner rfl h

theorem pairInv_forcePass (pos : List (Option Q3)) (draw : ℕ → ℚ)
    (headingVal : ℕ → Q3) (skip : ℕ → Bool) (l : List PairState)
    (hposlen : pos.length ≤ l.length) (h : pairInv l) :
    pairInv (forcePass pos draw headingVal skip l).1 := by
  have hmain := foldl_inv
    (P := fun a : List PairState × List ForceFlags =>
      pairInv a.1 ∧ pos.length ≤ a.1.length)
    (f := forcePassStep pos draw headingVal skip) (List.range pos.length)
    (l, List.replicate pos.length {}) ⟨h, hposlen⟩ ?_
  · exact hmain.1
  · intro k _ b hb
    constructor
    · exact pairInv_forcePassStep pos draw headingVal skip b k hb.1
    · rw [length_forcePassStep_fst]
      exact hb.2

/-- C1: Pairing symmetry.  If the pair-state array satisfies the mutuality
invariant (`pairInv`: every link is `-1` or a distinct in-range index, and
`partner i = j` iff `partner j = i`), then it still satisfies it after the
per-tick pairing pass `_findPairs` (cooldown/grace decrement, distance-break
check and formation) and after the movement loop's force pass, whose only
pair-state link mutations are the probabilistic `_breakPair` calls. -/
theorem pairing_symmetry (pos : List (Option Q3)) (cats : List (Option String))
    (newDir : ℕ → Q3) (dirs : List (Option Q3)) (draw : ℕ → ℚ)
    (headingVal : ℕ → Q3) (skip : ℕ → Bool) (l : List PairState)
    (hlen : pos.length ≤ l.length) (hinv : pairInv l) :
    pairInv (findPairs pos cats newDir l dirs).1 ∧
      pairInv (forcePass pos draw headingVal skip l).1 :=
  ⟨pairInv_findPairs pos cats newDir l dirs hlen hinv,
   pairInv_forcePass pos draw headingVal skip l hlen hinv⟩

/-- Witness for C1 at a concrete two-agent population with fresh (unpaired)
states. -/
theorem pairing_symmetry_witness :
    ([some (⟨0, 0, 0⟩ : Q3), some ⟨10, 0, 0⟩] : List (Option Q3)).length ≤
        ([{}, {}] : List PairState).length ∧
      pairInv ([{}, {}] : List PairState) ∧
      (pairInv (findPairs [some ⟨0, 0, 0⟩, some ⟨10, 0, 0⟩] [none, none]
          (fun _ => ⟨1, 0, 0⟩) [{}, {}] [none, none]).1 ∧
        pairInv (forcePass [some ⟨0, 0, 0⟩, some ⟨10, 0, 0⟩] (fun _ => 1)
          (fun _ => ⟨1, 0, 0⟩) (fun _ => false) [{}, {}]).1) :=
  ⟨by decide, by decide,
   pairing_symmetry [some ⟨0, 0, 0⟩, some ⟨10, 0, 0⟩] [none, none]
     (fun _ => ⟨1, 0, 0⟩) [none, none] (fun _ => 1) (fun _ => ⟨1, 0, 0⟩)
     (fun _ => false) [{}, {}] (by decide) (by decide)⟩

/-! ## The distance-break postcondition (C5) -/

theorem range_split (n i : ℕ) (h : i < n) :
    List.range n = List.range i ++ i :: List.range' (i + 1) (n - i - 1) := by
  conv_lhs => rw [show n = (i + 1) + (n - i - 1) by omega]
  rw [List.range_add, List.range_succ, List.range'_eq_map_range]
  simp

theorem distSqPlanar_le_distSq3 (a b : Q3) : distSqPlanar a b ≤ distSq3 a b := by
  unfold distSqPlanar distSq3
  nlinarith [sq_nonneg (a.y - b.y)]

/-- A break-check iteration for agent `k` leaves any entry `m` untouched when
`m` is neither `k` nor linked to `k`. -/
theorem getSt_breakCheckStep_ne (pos : List (Option Q3)) (b : List PairState)
    (k m : ℕ) (hinv : pairInv b) (hkm : k ≠ m)
    (hpm : (getSt b m).partner ≠ (k : ℤ)) :
    getSt (breakCheckStep pos b k) m = getSt b m := by
  by_cases hk : k < b.length
  · by_cases hpk : (getSt b k).partner = -1
    · rw [breakCheckStep_of_unpaired pos b k hpk]
    · obtain ⟨q, hqmem, hqk, hpq⟩ :=
        (hinv.1 k (List.mem_range.mpr hk)).resolve_left hpk
      have hqlt : q < b.length := List.mem_range.mp hqmem
      have hqm : q ≠ m := by
        intro hc
        subst hc
        exact hpm (pairSymm_get hinv.2 hk hqlt hpq)
      cases hA : pos.getD k none with
      | none => rw [breakCheckStep_of_noPosA pos b k q hpq hA]
      | some A =>
        cases hB : pos.getD q none with
        | none => rw [breakCheckStep_of_noPosB pos b k q hpq hB]
        | some B =>
          by_cases hd : pairKeepRadius ^ 2 < distSq3 A B
          · rw [breakCheckStep_of_fire pos b k q hpq hqlt A B hA hB hd]
            rw [getSt_set_ne _ _ (Ne.symm hqm), getSt_set_ne _ _ (Ne.symm hkm)]
          · rw [breakCheckStep_of_noFire pos b k q hpq hqlt A B hA hB hd]
  · rw [breakCheckStep_of_ge pos b k (by omega)]

/-- After the full distance-break loop, a mutually paired couple whose
centers are farther apart than the keep radius is broken with exactly the
fields of `distBroken` on both sides. -/
theorem breakCheck_couple_break (pos : List (Option Q3)) (l : List PairState)
    {i j : ℕ} (hij : i < j) (hjl : j < l.length) (hinv : pairInv l)
    (hpi : (getSt l i).partner = (j : ℤ)) {A B : Q3}
    (hA : pos.getD i none = some A) (hB : pos.getD j none = some B)
    (hd : pairKeepRadius ^ 2 < distSq3 A B) :
    getSt (breakCheck pos l) i = distBroken (getSt l i) (j : ℤ) ∧
      getSt (breakCheck pos l) j = distBroken (getSt l j) (i : ℤ) := by
  have hil : i < l.length := lt_trans hij hjl
  have hpj : (getSt l j).partner = (i : ℤ) := pairSymm_get hinv.2 hil hjl hpi
  unfold breakCheck
  rw [range_split l.length i hil, List.foldl_append, List.foldl_cons]
  set P1 : List PairState → Prop := fun b =>
    pairInv b ∧ b.length = l.length ∧ getSt b i = getSt l i ∧
      getSt b j = getSt l j with hP1
  have h1 : P1 ((List.range i).foldl (breakCheckStep pos) l) := by
    refine foldl_inv _ l ⟨hinv, rfl, rfl, rfl⟩ ?_
    intro k hkmem b hb
    obtain ⟨hbinv, hblen, hbi, hbj⟩ := hb
    have hki : k < i := List.mem_range.mp hkmem
    refine ⟨pairInv_breakCheckStep pos b k hbinv,
      (length_breakCheckStep pos b k).trans hblen, ?_, ?_⟩
    · rw [getSt_breakCheckStep_ne pos b k i hbinv (by omega) ?_, hbi]
      rw [hbi, hpi]
      omega
    · rw [getSt_breakCheckStep_ne pos b k j hbinv (by omega) ?_, hbj]
      rw [hbj, hpj]
      omega
  set b1 := (List.range i).foldl (breakCheckStep pos) l with hb1
  obtain ⟨hb1inv, hb1len, hb1i, hb1j⟩ := h1
  have hfire : breakCheckStep pos b1 i =
      (b1.set i (distBroken (getSt b1 i) (j : ℤ))).set j
        (distBroken (getSt b1 j) (i : ℤ)) :=
    breakCheckStep_of_fire pos b1 i j (by rw [hb1i]; exact hpi)
      (by omega) A B hA hB hd
  have hb2i : getSt (breakCheckStep pos b1 i) i =
      distBroken (getSt l i) (j : ℤ) := by
    rw [hfire, getSt_set_ne _ _ (by omega),
      getSt_set_self _ _ _ (by omega), hb1i]
  have hb2j : getSt (breakCheckStep pos b1 i) j =
      distBroken (getSt l j) (i : ℤ) := by
    rw [hfire, getSt_set_self _ _ _ (by simp; omega), hb1j]
  have hb2inv : pairInv (breakCheckStep pos b1 i) :=
    pairInv_breakCheckStep pos b1 i hb1inv
  have hb2len : (breakCheckStep pos b1 i).length = l.length := by
    rw [length_breakCheckStep]
    exact hb1len
  set P2 : List PairState → Prop := fun b =>
    pairInv b ∧ b.length = l.length ∧
      getSt b i = distBroken (getSt l i) (j : ℤ) ∧
      getSt b j = distBroken (getSt l j) (i : ℤ) with hP2
  have h2 : P2 ((List.range' (i + 1) (l.length - i - 1)).foldl
      (breakCheckStep pos) (breakCheckStep pos b1 i)) := by
    refine foldl_inv _ _ ⟨hb2inv, hb2len, hb2i, hb2j⟩ ?_
    intro k _ b hb
    obtain ⟨hbinv, hblen, hbi, hbj⟩ := hb
    by_cases hkj : k = j
    · subst hkj
      refine ⟨pairInv_breakCheckStep pos b k hbinv,
        (length_breakCheckStep pos b k).trans hblen, ?_, ?_⟩ <;>
        rw [breakCheckStep_of_unpaired pos b k (by rw [hbj]; rfl)]
      · exact hbi
      · exact hbj
    · by_cases hki : k = i
      · subst hki
        refine ⟨pairInv_breakCheckStep pos b k hbinv,
          (length_breakCheckStep pos b k).trans hblen, ?_, ?_⟩ <;>
          rw [breakCheckStep_of_unpaired pos b k (by rw [hbi]; rfl)]
        · exact hbi
        · exact hbj
      · refine ⟨pairInv_breakCheckStep pos b k hbinv,
          (length_breakCheckStep pos b k).trans hblen, ?_, ?_⟩
        · rw [getSt_breakCheckStep_ne pos b k i hbinv (Ne.symm ?_) ?_, hbi]
          · omega
          · rw [hbi]
            show (-1 : ℤ) ≠ (k : ℤ)
            omega
        · rw [getSt_breakCheckStep_ne pos b k j hbinv (Ne.symm ?_) ?_, hbj]
          · omega
          · rw [hbj]
            show (-1 : ℤ) ≠ (k : ℤ)
            omega
  exact ⟨h2.2.2.1, h2.2.2.2⟩

/-- C5: Distance-break postcondition.  For a mutually paired couple `(i, j)`
whose horizontal distance exceeds the keep radius at the start of the break
check (stated on squared distances; the 3D distance the source compares is at
least the planar one), the break check leaves both members with
`partner = -1`, `frames = 0`, `cooldown = pairCooldown`,
`breakGrace = breakGraceFrames`, and `breakPartner` naming each other. -/
theorem distance_break_postcondition (pos : List (Option Q3))
    (l : List PairState) (i j : ℕ) (hij : i < j) (hjl : j < l.length)
    (hinv : pairInv l) (hpi : (getSt l i).partner = (j : ℤ)) (A B : Q3)
    (hA : pos.getD i none = some A) (hB : pos.getD j none = some B)
    (hd : pairKeepRadius ^ 2 < distSqPlanar A B) :
    ((getSt (breakCheck pos l) i).partner = -1 ∧
      (getSt (breakCheck pos l) i).frames = 0 ∧
      (getSt (breakCheck pos l) i).cooldown = pairCooldown ∧
      (getSt (breakCheck pos l) i).breakGrace = breakGraceFrames ∧
      (getSt (breakCheck pos l) i).breakPartner = (j : ℤ)) ∧
    ((getSt (breakCheck pos l) j).partner = -1 ∧
      (getSt (breakCheck pos l) j).frames = 0 ∧
      (getSt (breakCheck pos l) j).cooldown = pairCooldown ∧
      (getSt (breakCheck pos l) j).breakGrace = breakGraceFrames ∧
      (getSt (breakCheck pos l) j).breakPartner = (i : ℤ)) := by
  have hd3 : pairKeepRadius ^ 2 < distSq3 A B :=
    lt_of_lt_of_le hd (distSqPlanar_le_distSq3 A B)
  obtain ⟨h1, h2⟩ := breakCheck_couple_break pos l hij hjl hinv hpi hA hB hd3
  rw [h1, h2]
  exact ⟨⟨rfl, rfl, rfl, rfl, rfl⟩, ⟨rfl, rfl, rfl, rfl, rfl⟩⟩

/-- Witness for C5: a mutually paired couple at distance 100 with keep
radius 35 breaks with the claimed fields. -/
theorem distance_break_postcondition_witness :
    (0 : ℕ) < 1 ∧ 1 < ([{ partner := 1 }, { partner := 0 }] :
        List PairState).length ∧
      pairInv ([{ partner := 1 }, { partner := 0 }] : List PairState) ∧
      pairKeepRadius ^ 2 <
        distSqPlanar ⟨0, 0, 0⟩ ⟨100, 0, 0⟩ ∧
      (((getSt (breakCheck [some ⟨0, 0, 0⟩, some ⟨100, 0, 0⟩]
          [{ partner := 1 }, { partner := 0 }]) 0).partner = -1 ∧
        (getSt (breakCheck [some ⟨0, 0, 0⟩, some ⟨100, 0, 0⟩]
          [{ partner := 1 }, { partner := 0 }]) 0).frames = 0 ∧
        (getSt (breakCheck [some ⟨0, 0, 0⟩, some ⟨100, 0, 0⟩]
          [{ partner := 1 }, { partner := 0 }]) 0).cooldown = pairCooldown ∧
        (getSt (breakCheck [some ⟨0, 0, 0⟩, some ⟨100, 0, 0⟩]
          [{ partner := 1 }, { partner := 0 }]) 0).breakGrace =
            breakGraceFrames ∧
        (getSt (breakCheck [some ⟨0, 0, 0⟩, some ⟨100, 0, 0⟩]
          [{ partner := 1 }, { partner := 0 }]) 0).breakPartner = (1 : ℤ)) ∧
       ((getSt (breakCheck [some ⟨0, 0, 0⟩, some ⟨100, 0, 0⟩]
          [{ partner := 1 }, { partner := 0 }]) 1).partner = -1 ∧
        (getSt (breakCheck [some ⟨0, 0, 0⟩, some ⟨100, 0, 0⟩]
          [{ partner := 1 }, { partner := 0 }]) 1).frames = 0 ∧
        (getSt (breakCheck [some ⟨0, 0, 0⟩, some ⟨100, 0, 0⟩]
          [{ partner := 1 }, { partner := 0 }]) 1).cooldown = pairCooldown ∧
        (getSt (breakCheck [some ⟨0, 0, 0⟩, some ⟨100, 0, 0⟩]
          [{ partner := 1 }, { partner := 0 }]) 1).breakGrace =
            breakGraceFrames ∧
        (getSt (breakCheck [some ⟨0, 0, 0⟩, some ⟨100, 0, 0⟩]
          [{ partner := 1 }, { partner := 0 }]) 1).breakPartner = (0 : ℤ))) :=
  ⟨by decide, by decide, by decide,
   by norm_num [pairKeepRadius, distSqPlanar],
   distance_break_postcondition [some ⟨0, 0, 0⟩, some ⟨100, 0, 0⟩]
     [{ partner := 1 }, { partner := 0 }] 0 1 (by decide) (by decide)
     (by decide) (by decide) ⟨0, 0, 0⟩ ⟨100, 0, 0⟩ (by decide) (by decide)
     (by norm_num [pairKeepRadius, distSqPlanar])⟩

/-! ## Break-then-skip-repulsion (C10) -/

/-- JS array read `flags[i]` for the per-iteration force-pass flags. -/
def getFl (fl : List ForceFlags) (i : ℕ) : ForceFlags := fl.getD i default

theorem getFl_set_self (fl : List ForceFlags) (i : ℕ) (a : ForceFlags)
    (h : i < fl.length) : getFl (fl.set i a) i = a := by
  simp [getFl, List.getD_eq_getElem?_getD, List.getElem?_set_eq_of_lt, h]

theorem getFl_set_ne (fl : List ForceFlags) {i j : ℕ} (a : ForceFlags)
    (h : j ≠ i) : getFl (fl.set i a) j = getFl fl j := by
  simp [getFl, List.getD_eq_getElem?_getD, List.getElem?_set_ne (Ne.symm h)]

/-- A pairing-state iteration for agent `k` leaves entry `m` untouched when
`m` is neither `k` nor linked to `k`. -/
theorem getSt_pairingStateStep_ne (pos : List (Option Q3)) (draw : ℕ → ℚ)
    (headingVal : ℕ → Q3) (b : List PairState) (k m : ℕ) (hinv : pairInv b)
    (hkm : k ≠ m) (hpm : (getSt b m).partner ≠ (k : ℤ)) :
    getSt (pairingStateStep pos draw headingVal b k) m = getSt b m := by
  by_cases hpk : (getSt b k).partner = -1
  · rw [pairingStateStep_of_unpaired pos draw headingVal b k hpk]
    split
    · rw [getSt_set_ne _ _ (Ne.symm hkm)]
    · rfl
  · have hk : k < b.length := by
      by_contra hc
      rw [getSt_of_ge b (by omega)] at hpk
      exact hpk rfl
    obtain ⟨q, hqmem, hqk, hpq⟩ :=
      (hinv.1 k (List.mem_range.mpr hk)).resolve_left hpk
    have hqlt : q < b.length := List.mem_range.mp hqmem
    have hqm : q ≠ m := by
      intro hc
      subst hc
      exact hpm (pairSymm_get hinv.2 hk hqlt hpq)
    rw [pairingStateStep_of_paired pos draw headingVal b k q hpq]
    dsimp only
    have hne1 : getSt (b.set k { getSt b k with
        frames := (getSt b k).frames + 1 }) m = getSt b m :=
      getSt_set_ne b _ (Ne.symm hkm)
    split
    · split
      · exact hne1
      · split
        · rw [breakPair_eq _ k q _ _ (by simpa using hqlt) hqk,
            getSt_set_ne _ _ (Ne.symm hqm), getSt_set_ne _ _ (Ne.symm hkm)]
          exact hne1
        · exact hne1
    · exact hne1

theorem length_forcePassStep_snd (pos : List (Option Q3)) (draw : ℕ → ℚ)
    (headingVal : ℕ → Q3) (skip : ℕ → Bool)
    (acc : List PairState × List ForceFlags) (i : ℕ) :
    (forcePassStep pos draw headingVal skip acc i).2.length = acc.2.length := by
  unfold forcePassStep
  dsimp only
  split
  · rfl
  · simp

/-- A force-pass iteration for agent `k` leaves the state entry and the flag
entry of any `m` untouched when `m` is neither `k` nor linked to `k`. -/
theorem forcePassStep_ne (pos : List (Option Q3)) (draw : ℕ → ℚ)
    (headingVal : ℕ → Q3) (skip : ℕ → Bool)
    (acc : List PairState × List ForceFlags) (k m : ℕ) (hinv : pairInv acc.1)
    (hkm : k ≠ m) (hpm : (getSt acc.1 m).partner ≠ (k : ℤ)) :
    getSt (forcePassStep pos draw headingVal skip acc k).1 m =
        getSt acc.1 m ∧
      getFl (forcePassStep pos draw headingVal skip acc k).2 m =
        getFl acc.2 m := by
  unfold forcePassStep
  dsimp only
  split
  · exact ⟨rfl, rfl⟩
  · constructor
    · have hinv0 : pairInv (acc.1.set k
          { getSt acc.1 k with breakThisFrame := false }) :=
        pairInv_set_same_partner rfl hinv
      have hpm0 : (getSt (acc.1.set k
          { getSt acc.1 k with breakThisFrame := false }) m).partner ≠
            (k : ℤ) := by
        rwa [getSt_set_ne _ _ (Ne.symm hkm)]
      rw [getSt_pairingStateStep_ne pos draw headingVal _ k m hinv0 hkm hpm0,
        getSt_set_ne _ _ (Ne.symm hkm)]
    · rw [getFl_set_ne _ _ (Ne.symm hkm)]

/-- A force-pass iteration in which the agent's probabilistic break fires:
both pair-state entries are broken and the agent's repulsion pass is
skipped while exploration still runs. -/
theorem forcePassStep_break_facts (pos : List (Option Q3)) (draw : ℕ → ℚ)
    (headingVal : ℕ → Q3) (skip : ℕ → Bool) (b : List PairState)
    (flags : List ForceFlags) (i j : ℕ) (hij : j ≠ i) (hilen : i < b.length)
    (hjlen : j < b.length) (hpi : (getSt b i).partner = (j : ℤ)) (A B : Q3)
    (hA : pos.getD i none = some A) (hB : pos.getD j none = some B)
    (heps : ¬(distSq3 B A < (1 / 1000000 : ℚ) ^ 2))
    (hfr : pairMinFrames < (getSt b i).frames + 1)
    (hdr : draw i < pairBreakProb) (hskip : skip i = false) :
    getSt (forcePassStep pos draw headingVal skip (b, flags) i).1 i =
        probBroken { getSt b i with
          breakThisFrame := false
          frames := (getSt b i).frames + 1 } (j : ℤ) (headingVal i)
          (easeOf ((getSt b i).frames + 1)) ∧
      getSt (forcePassStep pos draw headingVal skip (b, flags) i).1 j =
        probBroken (getSt b j) (i : ℤ) (headingVal i)
          (easeOf ((getSt b i).frames + 1)) ∧
      (forcePassStep pos draw headingVal skip (b, flags) i).2 =
        flags.set i { repulsionApplied := false, explorationApplied := true } := by
  have hA2 := hA
  rw [List.getD_eq_getElem?_getD] at hA2
  unfold forcePassStep
  dsimp only
  rw [if_neg (by simp [hA2, hskip])]
  set s0 : PairState := { getSt b i with breakThisFrame := false } with hs0
  have hl0i : getSt (b.set i s0) i = s0 := getSt_set_self b i s0 hilen
  have hl0j : getSt (b.set i s0) j = getSt b j := getSt_set_ne b s0 hij
  have hps : pairingStateStep pos draw headingVal (b.set i s0) i =
      breakPair ((b.set i s0).set i { s0 with frames := s0.frames + 1 }) i j
        (headingVal i) (easeOf (s0.frames + 1)) := by
    rw [pairingStateStep_of_paired pos draw headingVal (b.set i s0) i j
      (by rw [hl0i]; exact hpi)]
    dsimp only
    rw [hl0i, hA, hB]
    dsimp only
    rw [if_neg heps, if_pos ⟨by exact hfr, hdr⟩]
  rw [hps]
  have hset2 : ((b.set i s0).set i { s0 with frames := s0.frames + 1 }) =
      b.set i { s0 with frames := s0.frames + 1 } := by
    rw [List.set_set]
  rw [hset2]
  have hlen2 : j < (b.set i { s0 with frames := s0.frames + 1 }).length := by
    simpa using hjlen
  rw [breakPair_eq _ i j _ _ hlen2 hij]
  have hg1 : getSt (b.set i { s0 with frames := s0.frames + 1 }) i =
      { s0 with frames := s0.frames + 1 } := getSt_set_self b i _ hilen
  have hg2 : getSt (b.set i { s0 with frames := s0.frames + 1 }) j =
      getSt b j := getSt_set_ne b _ hij
  have hgi : getSt (((b.set i { s0 with frames := s0.frames + 1 }).set i
      (probBroken (getSt (b.set i { s0 with frames := s0.frames + 1 }) i)
        (j : ℤ) (headingVal i) (easeOf (s0.frames + 1)))).set j
      (probBroken (getSt (b.set i { s0 with frames := s0.frames + 1 }) j)
        (i : ℤ) (headingVal i) (easeOf (s0.frames + 1)))) i =
      probBroken (getSt (b.set i { s0 with frames := s0.frames + 1 }) i)
        (j : ℤ) (headingVal i) (easeOf (s0.frames + 1)) := by
    rw [getSt_set_ne _ _ (by omega), getSt_set_self _ _ _ (by simpa using hilen)]
  have hgj : getSt (((b.set i { s0 with frames := s0.frames + 1 }).set i
      (probBroken (getSt (b.set i { s0 with frames := s0.frames + 1 }) i)
        (j : ℤ) (headingVal i) (easeOf (s0.frames + 1)))).set j
      (probBroken (getSt (b.set i { s0 with frames := s0.frames + 1 }) j)
        (i : ℤ) (headingVal i) (easeOf (s0.frames + 1)))) j =
      probBroken (getSt (b.set i { s0 with frames := s0.frames + 1 }) j)
        (i : ℤ) (headingVal i) (easeOf (s0.frames + 1)) := by
    rw [getSt_set_self _ _ _ (by simpa using hjlen)]
  refine ⟨?_, ?_, ?_⟩
  · rw [hgi, hg1]
  · rw [hgj, hg2]
  · rw [hgi]
    rfl

/-- A solo pairing-state iteration never flags a break. -/
theorem pairingStateStep_unpaired_breakThisFrame (pos : List (Option Q3))
    (draw : ℕ → ℚ) (headingVal : ℕ → Q3) (b : List PairState) (k : ℕ)
    (hk : k < b.length) (hp : (getSt b k).partner = -1) :
    (getSt (pairingStateStep pos draw headingVal b k) k).breakThisFrame =
      (getSt b k).breakThisFrame := by
  rw [pairingStateStep_of_unpaired pos draw headingVal b k hp]
  split
  · rw [getSt_set_self b k _ hk]
  · rfl

/-- A force-pass iteration for an unpaired agent applies repulsion and
exploration. -/
theorem forcePassStep_solo_flags (pos : List (Option Q3)) (draw : ℕ → ℚ)
    (headingVal : ℕ → Q3) (skip : ℕ → Bool) (b : List PairState)
    (flags : List ForceFlags) (j : ℕ) (hjlen : j < b.length)
    (hpj : (getSt b j).partner = -1) (B : Q3)
    (hB : pos.getD j none = some B) (hskip : skip j = false) :
    (forcePassStep pos draw headingVal skip (b, flags) j).2 =
      flags.set j { repulsionApplied := true, explorationApplied := true } := by
  have hB2 := hB
  rw [List.getD_eq_getElem?_getD] at hB2
  unfold forcePassStep
  dsimp only
  rw [if_neg (by simp [hB2, hskip])]
  set s0 : PairState := { getSt b j with breakThisFrame := false } with hs0
  have hl0j : getSt (b.set j s0) j = s0 := getSt_set_self b j s0 hjlen
  show flags.set j
      { repulsionApplied := !(getSt (pairingStateStep pos draw headingVal
          (b.set j s0) j) j).breakThisFrame
        explorationApplied := true } =
    flags.set j { repulsionApplied := true, explorationApplied := true }
  rw [pairingStateStep_unpaired_breakThisFrame pos draw headingVal
    (b.set j s0) j (by simpa using hjlen) (by rw [hl0j]; exact hpj), hl0j,
    hs0]
  rfl

/-- A force-pass iteration only writes the flag entry of its own agent. -/
theorem forcePassStep_flag_ne (pos : List (Option Q3)) (draw : ℕ → ℚ)
    (headingVal : ℕ → Q3) (skip : ℕ → Bool)
    (acc : List PairState × List ForceFlags) (k m : ℕ) (hkm : k ≠ m) :
    getFl (forcePassStep pos draw headingVal skip acc k).2 m =
      getFl acc.2 m := by
  unfold forcePassStep
  dsimp only
  split
  · rfl
  · rw [getFl_set_ne _ _ (Ne.symm hkm)]

/-- C10: On a tick in which agent `i`'s pairing pass triggers the
probabilistic break against its partner `j` (frames above `pairMinFrames`,
draw below `pairBreakProb`), the repulsion/attraction pass is skipped for `i`
on that same tick while its exploration pass still runs; the ex-partner `j`,
processed later in the same loop, still gets its repulsion pass (its
`breakThisFrame` flag is reset at the start of its own iteration) as well as
exploration. -/
theorem break_skips_repulsion (pos : List (Option Q3)) (draw : ℕ → ℚ)
    (headingVal : ℕ → Q3) (skip : ℕ → Bool) (l : List PairState) (i j : ℕ)
    (hij : i < j) (hjpos : j < pos.length) (hlen : pos.length ≤ l.length)
    (hinv : pairInv l) (hpi : (getSt l i).partner = (j : ℤ)) (A B : Q3)
    (hA : pos.getD i none = some A) (hB : pos.getD j none = some B)
    (heps : ¬(distSq3 B A < (1 / 1000000 : ℚ) ^ 2))
    (hfr : pairMinFrames < (getSt l i).frames + 1)
    (hdr : draw i < pairBreakProb) (hski : skip i = false)
    (hskj : skip j = false) :
    getFl (forcePass pos draw headingVal skip l).2 i =
        { repulsionApplied := false, explorationApplied := true } ∧
      getFl (forcePass pos draw headingVal skip l).2 j =
        { repulsionApplied := true, explorationApplied := true } := by
  have hilen : i < l.length := by omega
  have hjlen : j < l.length := by omega
  have hpj : (getSt l j).partner = (i : ℤ) := pairSymm_get hinv.2 hilen hjlen hpi
  unfold forcePass
  rw [range_split pos.length j hjpos, range_split j i hij, List.foldl_append,
    List.foldl_append, List.foldl_cons, List.foldl_cons]
  set f := forcePassStep pos draw headingVal skip with hf
  set pJ : PairState := probBroken (getSt l j) (i : ℤ) (headingVal i)
    (easeOf ((getSt l i).frames + 1)) with hpJ
  set PA : List PairState × List ForceFlags → Prop := fun acc =>
    pairInv acc.1 ∧ acc.1.length = l.length ∧ acc.2.length = pos.length ∧
      getSt acc.1 i = getSt l i ∧ getSt acc.1 j = getSt l j with hPA
  have hA1 : PA ((List.range i).foldl f (l, List.replicate pos.length {})) := by
    refine foldl_inv _ _ ⟨hinv, rfl, by simp, rfl, rfl⟩ ?_
    intro k hk acc hacc
    obtain ⟨q1, q2, q3, q4, q5⟩ := hacc
    have hki : k < i := List.mem_range.mp hk
    have hsi : (getSt acc.1 i).partner ≠ (k : ℤ) := by
      rw [q4, hpi]
      omega
    have hsj : (getSt acc.1 j).partner ≠ (k : ℤ) := by
      rw [q5, hpj]
      omega
    obtain ⟨hti, _⟩ := forcePassStep_ne pos draw headingVal skip acc k i q1
      (by omega) hsi
    obtain ⟨htj, _⟩ := forcePassStep_ne pos draw headingVal skip acc k j q1
      (by omega) hsj
    exact ⟨pairInv_forcePassStep pos draw headingVal skip acc k q1,
      (length_forcePassStep_fst pos draw headingVal skip acc k).trans q2,
      (length_forcePassStep_snd pos draw headingVal skip acc k).trans q3,
      hti.trans q4, htj.trans q5⟩
  obtain ⟨a1inv, a1len, a1flen, a1i, a1j⟩ := hA1
  set a1 := (List.range i).foldl f (l, List.replicate pos.length {}) with ha1
  obtain ⟨b2i, b2j, b2fl⟩ := forcePassStep_break_facts pos draw headingVal
    skip a1.1 a1.2 i j (by omega) (by omega) (by omega) (by rw [a1i]; exact hpi)
    A B hA hB heps (by rw [a1i]; exact hfr) hdr hski
  rw [a1i] at b2i
  rw [a1i, a1j] at b2j
  set PB : List PairState × List ForceFlags → Prop := fun acc =>
    pairInv acc.1 ∧ acc.1.length = l.length ∧ acc.2.length = pos.length ∧
      getSt acc.1 j = pJ ∧
      getFl acc.2 i =
        { repulsionApplied := false, explorationApplied := true } with hPB
  have hB2 : PB (f a1 i) := by
    refine ⟨pairInv_forcePassStep pos draw headingVal skip a1 i a1inv,
      (length_forcePassStep_fst pos draw headingVal skip a1 i).trans a1len,
      (length_forcePassStep_snd pos draw headingVal skip a1 i).trans a1flen,
      ?_, ?_⟩
    · rw [hf]
      exact b2j
    · rw [hf]
      show getFl (forcePassStep pos draw headingVal skip (a1.1, a1.2) i).2 i = _
      rw [b2fl, getFl_set_self _ _ _ (by omega)]
  have hB3 : PB ((List.range' (i + 1) (j - i - 1)).foldl f (f a1 i)) := by
    refine foldl_inv _ _ hB2 ?_
    intro k hk acc hacc
    obtain ⟨q1, q2, q3, q4, q5⟩ := hacc
    have hkr : i + 1 ≤ k ∧ k < i + 1 + (j - i - 1) := by
      have := List.mem_range'_1.mp hk
      omega
    have hsj : (getSt acc.1 j).partner ≠ (k : ℤ) := by
      rw [q4, hpJ]
      show (-1 : ℤ) ≠ (k : ℤ)
      omega
    obtain ⟨htj, _⟩ := forcePassStep_ne pos draw headingVal skip acc k j q1
      (by omega) hsj
    refine ⟨pairInv_forcePassStep pos draw headingVal skip acc k q1,
      (length_forcePassStep_fst pos draw headingVal skip acc k).trans q2,
      (length_forcePassStep_snd pos draw headingVal skip acc k).trans q3,
      htj.trans q4, ?_⟩
    rw [forcePassStep_flag_ne pos draw headingVal skip acc k i (by omega)]
    exact q5
  obtain ⟨a3inv, a3len, a3flen, a3j, a3fi⟩ := hB3
  set a3 := (List.range' (i + 1) (j - i - 1)).foldl f (f a1 i) with ha3
  have hsolo := forcePassStep_solo_flags pos draw headingVal skip a3.1 a3.2 j
    (by omega) (by rw [a3j, hpJ]; rfl) B hB hskj
  set PC : List PairState × List ForceFlags → Prop := fun acc =>
    acc.2.length = pos.length ∧
      getFl acc.2 i =
        { repulsionApplied := false, explorationApplied := true } ∧
      getFl acc.2 j =
        { repulsionApplied := true, explorationApplied := true } with hPC
  have hC1 : PC (f a3 j) := by
    refine ⟨(length_forcePassStep_snd pos draw headingVal skip a3 j).trans
      a3flen, ?_, ?_⟩
    · rw [hf]
      show getFl (forcePassStep pos draw headingVal skip (a3.1, a3.2) j).2 i = _
      rw [hsolo, getFl_set_ne _ _ (by omega)]
      exact a3fi
    · rw [hf]
      show getFl (forcePassStep pos draw headingVal skip (a3.1, a3.2) j).2 j = _
      rw [hsolo, getFl_set_self _ _ _ (by omega)]
  have hC2 : PC ((List.range' (j + 1) (pos.length - j - 1)).foldl f (f a3 j)) := by
    refine foldl_inv _ _ hC1 ?_
    intro k hk acc hacc
    obtain ⟨q1, q2, q3⟩ := hacc
    have hkr : j + 1 ≤ k := (List.mem_range'_1.mp hk).1
    refine ⟨(length_forcePassStep_snd pos draw headingVal skip acc k).trans q1,
      ?_, ?_⟩
    · rw [forcePassStep_flag_ne pos draw headingVal skip acc k i (by omega)]
      exact q2
    · rw [forcePassStep_flag_ne pos draw headingVal skip acc k j (by omega)]
      exact q3
  exact ⟨hC2.2.1, hC2.2.2⟩

/-- Witness for C10: two paired agents past the minimum pairing duration, a
zero random draw for agent 0 triggering the break. -/
theorem break_skips_repulsion_witness :
    pairInv ([{ partner := 1, frames := 500 }, { partner := 0, frames := 500 }]
        : List PairState) ∧
      pairMinFrames <
        (getSt [{ partner := 1, frames := 500 }, { partner := 0, frames := 500 }]
          0).frames + 1 ∧
      (0 : ℚ) < pairBreakProb ∧
      (getFl (forcePass [some ⟨0, 0, 0⟩, some ⟨10, 0, 0⟩] (fun _ => 0)
          (fun _ => ⟨1, 0, 0⟩) (fun _ => false)
          [{ partner := 1, frames := 500 }, { partner := 0, frames := 500 }]).2
          0 = { repulsionApplied := false, explorationApplied := true } ∧
        getFl (forcePass [some ⟨0, 0, 0⟩, some ⟨10, 0, 0⟩] (fun _ => 0)
          (fun _ => ⟨1, 0, 0⟩) (fun _ => false)
          [{ partner := 1, frames := 500 }, { partner := 0, frames := 500 }]).2
          1 = { repulsionApplied := true, explorationApplied := true }) :=
  ⟨by decide, by decide, by norm_num [pairBreakProb],
   break_skips_repulsion [some ⟨0, 0, 0⟩, some ⟨10, 0, 0⟩] (fun _ => 0)
     (fun _ => ⟨1, 0, 0⟩) (fun _ => false)
     [{ partner := 1, frames := 500 }, { partner := 0, frames := 500 }] 0 1
     (by decide) (by decide) (by decide) (by decide) (by decide)
     ⟨0, 0, 0⟩ ⟨10, 0, 0⟩ (by decide) (by decide)
     (by norm_num [distSq3]) (by decide) (by norm_num [pairBreakProb]) rfl rfl⟩

/-- In a cell of size 50, every coordinate in `[0, 50)` hashes to cell 0. -/
theorem floor50 (x : ℚ) (h1 : 0 ≤ x) (h2 : x < 50) : (⌊x / 50⌋ : ℤ) = 0 := by
  rw [Int.floor_eq_iff]
  constructor
  · positivity
  · push_cast
    linarith

theorem ceil2550 : (⌈(25 : ℚ) / 50⌉ : ℤ) = 1 := by
  rw [Int.ceil_eq_iff]
  constructor <;> norm_num

/-- The three-agent instance of the tie counterexample all lands in grid
cell `(0, 0)`, in index order. -/
theorem cexGrid : buildGrid [some ⟨20, 0, 20⟩, some ⟨30, 0, 20⟩,
    some ⟨10, 0, 20⟩] =
    { cellSize := 50, grid := [((0, 0), [0, 1, 2])] } := by
  have h1 := floor50 20 (by norm_num) (by norm_num)
  have h2 := floor50 30 (by norm_num) (by norm_num)
  have h3 := floor50 10 (by norm_num) (by norm_num)
  have hr : List.range 3 = [0, 1, 2] := rfl
  simp [buildGrid, SpatialGrid.insertAll, gridInserts, SpatialGrid.insert,
    SpatialGrid.hashKey, SpatialGrid.bucketAdd, h1, h2, h3, hr, gridCellSize,
    List.filterMap_cons]

/-- Agent 0's formation query on that grid returns the candidates in index
order: candidate 1 is encountered before candidate 2. -/
theorem cexNearby :
    (SpatialGrid.getNearby { cellSize := 50, grid := [((0, 0), [0, 1, 2])] }
      ⟨20, 0, 20⟩ pairFormRadius) = [0, 1, 2] := by
  have h1 := floor50 20 (by norm_num) (by norm_num)
  have hc : (⌈pairFormRadius / (50 : ℚ)⌉ : ℤ) = 1 := by
    rw [show pairFormRadius = (25 : ℚ) from rfl]
    exact ceil2550
  have hir : SpatialGrid.intRange (-1) 1 = [-1, 0, 1] := by decide
  simp [SpatialGrid.getNearby, SpatialGrid.hashKey, h1, hc, hir,
    SpatialGrid.lookupBucket]
  decide

/-- The same query from agent 1's center. -/
theorem cexNearby2 :
    (SpatialGrid.getNearby { cellSize := 50, grid := [((0, 0), [0, 1, 2])] }
      ⟨30, 0, 20⟩ pairFormRadius) = [0, 1, 2] := by
  have h1 := floor50 30 (by norm_num) (by norm_num)
  have h2 := floor50 20 (by norm_num) (by norm_num)
  have hc : (⌈pairFormRadius / (50 : ℚ)⌉ : ℤ) = 1 := by
    rw [show pairFormRadius = (25 : ℚ) from rfl]
    exact ceil2550
  have hir : SpatialGrid.intRange (-1) 1 = [-1, 0, 1] := by decide
  simp [SpatialGrid.getNearby, SpatialGrid.hashKey, h1, h2, hc, hir,
    SpatialGrid.lookupBucket]
  decide

/-- Agent 0's selection fold over `[0, 1, 2]`: candidate 1 is taken first at
squared distance 100, then candidate 2 — at the same squared distance —
overwrites it, because the source compares with `dist <= bestDist`. -/
theorem cexSel :
    (([0, 1, 2] : List ℕ).foldl
      (selectStep [{}, {}, {}]
        [some ⟨20, 0, 20⟩, some ⟨30, 0, 20⟩, some ⟨10, 0, 20⟩]
        [some "mid", some "low", some "low"] "mid" 0 ⟨20, 0, 20⟩)
      (-1, pairFormRadius ^ 2)) = (2, 100) := by
  have he1 : selEligB [{}, {}, {}]
      [some ⟨20, 0, 20⟩, some ⟨30, 0, 20⟩, some ⟨10, 0, 20⟩]
      [some "mid", some "low", some "low"] "mid" 0 1 = true := by decide
  have he2 : selEligB [{}, {}, {}]
      [some ⟨20, 0, 20⟩, some ⟨30, 0, 20⟩, some ⟨10, 0, 20⟩]
      [some "mid", some "low", some "low"] "mid" 0 2 = true := by decide
  have hd1 : candDistSq [some ⟨20, 0, 20⟩, some ⟨30, 0, 20⟩, some ⟨10, 0, 20⟩]
      ⟨20, 0, 20⟩ 1 = 100 := by
    norm_num [candDistSq, distSq3]
  have hd2 : candDistSq [some ⟨20, 0, 20⟩, some ⟨30, 0, 20⟩, some ⟨10, 0, 20⟩]
      ⟨20, 0, 20⟩ 2 = 100 := by
    norm_num [candDistSq, distSq3]
  have s1 : selectStep [{}, {}, {}]
      [some ⟨20, 0, 20⟩, some ⟨30, 0, 20⟩, some ⟨10, 0, 20⟩]
      [some "mid", some "low", some "low"] "mid" 0 ⟨20, 0, 20⟩
      (-1, pairFormRadius ^ 2) 0 = (-1, pairFormRadius ^ 2) := by
    rw [selectStep_eq]
    simp [selEligB]
  have s2 : selectStep [{}, {}, {}]
      [some ⟨20, 0, 20⟩, some ⟨30, 0, 20⟩, some ⟨10, 0, 20⟩]
      [some "mid", some "low", some "low"] "mid" 0 ⟨20, 0, 20⟩
      (-1, pairFormRadius ^ 2) 1 = (1, 100) := by
    rw [selectStep_eq]
    simp [he1, hd1]
    norm_num [pairFormRadius]
  have s3 : selectStep [{}, {}, {}]
      [some ⟨20, 0, 20⟩, some ⟨30, 0, 20⟩, some ⟨10, 0, 20⟩]
      [some "mid", some "low", some "low"] "mid" 0 ⟨20, 0, 20⟩
      (1, 100) 2 = (2, 100) := by
    rw [selectStep_eq]
    simp [he2, hd2]
  rw [List.foldl_cons, List.foldl_cons, List.foldl_cons, List.foldl_nil,
    s1, s2, s3]

/-- Full evaluation of `_findPairs` on the tie instance: agent 0 ends up
linked to candidate 2, the last of the two equally distant candidates. -/
theorem cexFind :
    (getSt (findPairs [some ⟨20, 0, 20⟩, some ⟨30, 0, 20⟩, some ⟨10, 0, 20⟩]
      [some "mid", some "low", some "low"] (fun _ => ⟨1, 0, 0⟩)
      [{}, {}, {}] [none, none, none]).1 0).partner = 2 := by
  have hdec : decrementPhase [{}, {}, {}] = [{}, {}, {}] := by decide
  have hbc : breakCheck [some ⟨20, 0, 20⟩, some ⟨30, 0, 20⟩, some ⟨10, 0, 20⟩]
      [{}, {}, {}] = [{}, {}, {}] := by decide
  have hsel : (((buildGrid [some ⟨20, 0, 20⟩, some ⟨30, 0, 20⟩,
      some ⟨10, 0, 20⟩]).getNearby ⟨20, 0, 20⟩ pairFormRadius).foldl
      (selectStep [{}, {}, {}]
        [some ⟨20, 0, 20⟩, some ⟨30, 0, 20⟩, some ⟨10, 0, 20⟩]
        [some "mid", some "low", some "low"] "mid" 0 ⟨20, 0, 20⟩)
      (-1, pairFormRadius ^ 2)) = (((2 : ℕ) : ℤ), 100) := by
    rw [cexGrid, cexNearby]
    exact cexSel
  have hstep0 := formationStep_of_best
    [some ⟨20, 0, 20⟩, some ⟨30, 0, 20⟩, some ⟨10, 0, 20⟩]
    [some "mid", some "low", some "low"] (fun _ => ⟨1, 0, 0⟩)
    [{}, {}, {}] [none, none, none] 0 (by decide) ⟨20, 0, 20⟩ (by decide)
    "mid" (by decide) 2 100 hsel
  unfold findPairs
  dsimp only
  rw [hdec, hbc]
  unfold formationPass
  rw [show List.range ([some (⟨20, 0, 20⟩ : Q3), some ⟨30, 0, 20⟩,
    some ⟨10, 0, 20⟩] : List (Option Q3)).length = [0, 1, 2] from rfl]
  rw [List.foldl_cons, hstep0]
  have hl1 : (([{}, {}, {}] : List PairState).set 0
      { getSt [{}, {}, {}] 0 with partner := ((2 : ℕ) : ℤ), frames := 0 }).set 2
      { getSt [{}, {}, {}] 2 with partner := ((0 : ℕ) : ℤ), frames := 0 } =
      [{ partner := 2 }, {}, { partner := 0 }] := by decide
  have hdirs1 : (if ([none, none, none] : List (Option Q3)).getD
        (min 0 2) none = none then
      ([none, none, none] : List (Option Q3)).set (min 0 2)
        (some ((fun _ => (⟨1, 0, 0⟩ : Q3)) (min 0 2)))
    else [none, none, none]) = [some ⟨1, 0, 0⟩, none, none] := by decide
  rw [hl1, hdirs1]
  have hsel1 : (((buildGrid [some ⟨20, 0, 20⟩, some ⟨30, 0, 20⟩,
      some ⟨10, 0, 20⟩]).getNearby ⟨30, 0, 20⟩ pairFormRadius).foldl
      (selectStep [{ partner := 2 }, {}, { partner := 0 }]
        [some ⟨20, 0, 20⟩, some ⟨30, 0, 20⟩, some ⟨10, 0, 20⟩]
        [some "mid", some "low", some "low"] "low" 1 ⟨30, 0, 20⟩)
      (-1, pairFormRadius ^ 2)) = (-1, pairFormRadius ^ 2) := by
    rw [cexGrid, cexNearby2]
    rw [List.foldl_cons, List.foldl_cons, List.foldl_cons, List.foldl_nil]
    rw [show selectStep [{ partner := 2 }, {}, { partner := 0 }]
        [some ⟨20, 0, 20⟩, some ⟨30, 0, 20⟩, some ⟨10, 0, 20⟩]
        [some "mid", some "low", some "low"] "low" 1 ⟨30, 0, 20⟩
        (-1, pairFormRadius ^ 2) 0 = (-1, pairFormRadius ^ 2) from by
      rw [selectStep_eq]
      simp [show selEligB [{ partner := 2 }, {}, { partner := 0 }]
        [some ⟨20, 0, 20⟩, some ⟨30, 0, 20⟩, some ⟨10, 0, 20⟩]
        [some "mid", some "low", some "low"] "low" 1 0 = false from by decide]]
    rw [show selectStep [{ partner := 2 }, {}, { partner := 0 }]
        [some ⟨20, 0, 20⟩, some ⟨30, 0, 20⟩, some ⟨10, 0, 20⟩]
        [some "mid", some "low", some "low"] "low" 1 ⟨30, 0, 20⟩
        (-1, pairFormRadius ^ 2) 1 = (-1, pairFormRadius ^ 2) from by
      rw [selectStep_eq]
      simp [show selEligB [{ partner := 2 }, {}, { partner := 0 }]
        [some ⟨20, 0, 20⟩, some ⟨30, 0, 20⟩, some ⟨10, 0, 20⟩]
        [some "mid", some "low", some "low"] "low" 1 1 = false from by decide]]
    rw [show selectStep [{ partner := 2 }, {}, { partner := 0 }]
        [some ⟨20, 0, 20⟩, some ⟨30, 0, 20⟩, some ⟨10, 0, 20⟩]
        [some "mid", some "low", some "low"] "low" 1 ⟨30, 0, 20⟩
        (-1, pairFormRadius ^ 2) 2 = (-1, pairFormRadius ^ 2) from by
      rw [selectStep_eq]
      simp [show selEligB [{ partner := 2 }, {}, { partner := 0 }]
        [some ⟨20, 0, 20⟩, some ⟨30, 0, 20⟩, some ⟨10, 0, 20⟩]
        [some "mid", some "low", some "low"] "low" 1 2 = false from by decide]]
  have hstep1 := formationStep_of_noBest
    [some ⟨20, 0, 20⟩, some ⟨30, 0, 20⟩, some ⟨10, 0, 20⟩]
    [some "mid", some "low", some "low"] (fun _ => ⟨1, 0, 0⟩)
    [{ partner := 2 }, {}, { partner := 0 }] [some ⟨1, 0, 0⟩, none, none] 1
    (by decide) ⟨30, 0, 20⟩ (by decide) "low" (by decide)
    (pairFormRadius ^ 2) hsel1
  rw [List.foldl_cons, hstep1]
  have hstep2 := formationStep_of_ineligible
    [some ⟨20, 0, 20⟩, some ⟨30, 0, 20⟩, some ⟨10, 0, 20⟩]
    [some "mid", some "low", some "low"] (fun _ => ⟨1, 0, 0⟩)
    [{ partner := 2 }, {}, { partner := 0 }] [some ⟨1, 0, 0⟩, none, none] 2
    (by decide)
  rw [List.foldl_cons, hstep2, List.foldl_nil]
  decide

/-- C4 counterexample: three coplanar agents, agent 0 of category `"mid"`
with two eligible `"low"` candidates at exactly equal (squared) distance
100, the grid query listing candidate 1 before candidate 2.  The claimed
tie-break ("lowest index encountered first") would link agent 0 to
candidate 1, but the source's `dist <= bestDist` comparison lets the later
candidate overwrite an exact tie: `_findPairs` links agent 0 to 2. -/
theorem closest_candidate_tie_cex :
    selEligB [{}, {}, {}]
        [some ⟨20, 0, 20⟩, some ⟨30, 0, 20⟩, some ⟨10, 0, 20⟩]
        [some "mid", some "low", some "low"] "mid" 0 1 = true ∧
      selEligB [{}, {}, {}]
        [some ⟨20, 0, 20⟩, some ⟨30, 0, 20⟩, some ⟨10, 0, 20⟩]
        [some "mid", some "low", some "low"] "mid" 0 2 = true ∧
      candDistSq [some ⟨20, 0, 20⟩, some ⟨30, 0, 20⟩, some ⟨10, 0, 20⟩]
          ⟨20, 0, 20⟩ 1 =
        candDistSq [some ⟨20, 0, 20⟩, some ⟨30, 0, 20⟩, some ⟨10, 0, 20⟩]
          ⟨20, 0, 20⟩ 2 ∧
      (buildGrid [some ⟨20, 0, 20⟩, some ⟨30, 0, 20⟩,
          some ⟨10, 0, 20⟩]).getNearby ⟨20, 0, 20⟩ pairFormRadius =
        [0, 1, 2] ∧
      (getSt (findPairs [some ⟨20, 0, 20⟩, some ⟨30, 0, 20⟩, some ⟨10, 0, 20⟩]
          [some "mid", some "low", some "low"] (fun _ => ⟨1, 0, 0⟩)
          [{}, {}, {}] [none, none, none]).1 0).partner = 2 := by
  refine ⟨by decide, by decide, ?_, ?_, cexFind⟩
  · rw [show candDistSq [some ⟨20, 0, 20⟩, some ⟨30, 0, 20⟩, some ⟨10, 0, 20⟩]
        ⟨20, 0, 20⟩ 1 = 100 from by norm_num [candDistSq, distSq3],
      show candDistSq [some ⟨20, 0, 20⟩, some ⟨30, 0, 20⟩, some ⟨10, 0, 20⟩]
        ⟨20, 0, 20⟩ 2 = 100 from by norm_num [candDistSq, distSq3]]
  · rw [cexGrid]
    exact cexNearby

/-- An eligible candidate has a live center slot. -/
theorem selEligB_some {l : List PairState} {pos : List (Option Q3)}
    {cats : List (Option String)} {catA : String} {i j : ℕ}
    (h : selEligB l pos cats catA i j = true) :
    ∃ P, pos.getD j none = some P := by
  unfold selEligB at h
  simp only [Bool.and_eq_true] at h
  exact Option.isSome_iff_exists.mp h.1.2

theorem candDistSq_of_some (pos : List (Option Q3)) (A : Q3) {k : ℕ} {P : Q3}
    (hP : pos.getD k none = some P) : candDistSq pos A k = distSq3 A P := by
  unfold candDistSq
  rw [hP]

/-- Any eligible candidate within the (3D) formation radius of `A` is
returned by the grid query used in the formation pass. -/
theorem elig_mem_nearby (l : List PairState) (pos : List (Option Q3))
    (cats : List (Option String)) (catA : String) (i : ℕ) (A : Q3) {k : ℕ}
    (he : selEligB l pos cats catA i k = true)
    (hd : candDistSq pos A k ≤ pairFormRadius ^ 2) :
    k ∈ (buildGrid pos).getNearby A pairFormRadius := by
  obtain ⟨P, hP⟩ := selEligB_some he
  refine mem_nearby_of_close pos A hP ?_
  rw [candDistSq_of_some pos A hP] at hd
  have hle : (P.x - A.x) ^ 2 + (P.z - A.z) ^ 2 ≤ distSq3 A P := by
    unfold distSq3
    nlinarith [sq_nonneg (A.y - P.y)]
  linarith

/-- C4 (amended): in the formation pass, an unpaired, visible agent `i`
with no cooldown, an assigned category, and at least one eligible candidate
within the formation radius is linked — mutually — to an eligible candidate
at minimal distance within that radius; when several eligible candidates
tie at the minimal distance, the link goes to the one encountered LAST in
the grid-query order (the source updates on `dist <= bestDist`), not to the
lowest index encountered first. -/
theorem closest_candidate_formation (pos : List (Option Q3))
    (cats : List (Option String)) (newDir : ℕ → Q3) (l : List PairState)
    (dirs : List (Option Q3)) (i : ℕ) (hlen : pos.length ≤ l.length)
    (hi : i < l.length)
    (h : ¬((getSt l i).partner ≠ -1 ∨ 0 < (getSt l i).cooldown)) (A : Q3)
    (hA : pos.getD i none = some A) (catA : String)
    (hcat : cats.getD i none = some catA) (m : ℕ)
    (hm : selEligB l pos cats catA i m = true)
    (hmd : candDistSq pos A m ≤ pairFormRadius ^ 2) :
    (∃ b : ℕ,
      (getSt (formationStep pos cats newDir (l, dirs) i).1 i).partner =
        (b : ℤ) ∧
      (getSt (formationStep pos cats newDir (l, dirs) i).1 b).partner =
        (i : ℤ) ∧
      selEligB l pos cats catA i b = true ∧
      candDistSq pos A b ≤ pairFormRadius ^ 2 ∧
      (∀ k : ℕ, selEligB l pos cats catA i k = true →
        candDistSq pos A k ≤ pairFormRadius ^ 2 →
        candDistSq pos A b ≤ candDistSq pos A k)) ∧
    (∀ (l₁ l₂ : List ℕ) (c : ℕ),
      (buildGrid pos).getNearby A pairFormRadius = l₁ ++ c :: l₂ →
      selEligB l pos cats catA i c = true →
      candDistSq pos A c ≤ pairFormRadius ^ 2 →
      (∀ k : ℕ, selEligB l pos cats catA i k = true →
        candDistSq pos A k ≤ pairFormRadius ^ 2 →
        candDistSq pos A c ≤ candDistSq pos A k) →
      (∀ k ∈ l₂, selEligB l pos cats catA i k = true →
        candDistSq pos A c < candDistSq pos A k) →
      (getSt (formationStep pos cats newDir (l, dirs) i).1 i).partner =
        (c : ℤ)) := by
  have hmem : m ∈ (buildGrid pos).getNearby A pairFormRadius :=
    elig_mem_nearby l pos cats catA i A hm hmd
  have hne : (((buildGrid pos).getNearby A pairFormRadius).foldl
      (selectStep l pos cats catA i A) (-1, pairFormRadius ^ 2)).1 ≠ -1 :=
    selectFold_hit l pos cats catA i A _ _ m hmem hm hmd
  constructor
  · rcases selectFold_result l pos cats catA i A
      ((buildGrid pos).getNearby A pairFormRadius) (-1, pairFormRadius ^ 2)
      with hacc | ⟨b, hbmem, hbe, hbr⟩
    · rw [hacc] at hne
      exact absurd rfl hne
    · have hib : i ≠ b := (selEligB_props hbe).1
      have hbl : b < pos.length :=
        mem_getNearby_buildGrid_lt pos A pairFormRadius hbmem
      have hstep := formationStep_of_best pos cats newDir l dirs i h A hA
        catA hcat b (candDistSq pos A b) hbr
      refine ⟨b, ?_, ?_, hbe, ?_, ?_⟩
      · rw [hstep]
        dsimp only
        rw [getSt_set_ne _ _ hib, getSt_set_self l i _ hi]
      · rw [hstep]
        dsimp only
        rw [getSt_set_self _ b _ (by simp only [List.length_set]; omega)]
      · have h2 := selectFold_snd_mono l pos cats catA i A
          ((buildGrid pos).getNearby A pairFormRadius) (-1, pairFormRadius ^ 2)
        rw [hbr] at h2
        exact h2
      · intro k hke hkd
        have hkmem := elig_mem_nearby l pos cats catA i A hke hkd
        have h3 := selectFold_min l pos cats catA i A
          ((buildGrid pos).getNearby A pairFormRadius) (-1, pairFormRadius ^ 2)
          k hkmem hke
        rw [hbr] at h3
        exact h3
  · intro l₁ l₂ c hsplit hce hcd hcmin hcstrict
    have hic : i ≠ c := (selEligB_props hce).1
    have hlow : candDistSq pos A c ≤
        (l₁.foldl (selectStep l pos cats catA i A) (-1, pairFormRadius ^ 2)).2 := by
      refine selectFold_lower l pos cats catA i A l₁ _ _ hcd ?_
      intro k hk hke
      by_cases hkd : candDistSq pos A k ≤ pairFormRadius ^ 2
      · exact hcmin k hke hkd
      · exact le_trans hcd (le_of_lt (not_le.mp hkd))
    have hstepc : selectStep l pos cats catA i A
        (l₁.foldl (selectStep l pos cats catA i A) (-1, pairFormRadius ^ 2)) c =
        ((c : ℤ), candDistSq pos A c) := by
      rw [selectStep_eq, if_pos hce, if_pos hlow]
    have hfold : (((buildGrid pos).getNearby A pairFormRadius).foldl
        (selectStep l pos cats catA i A) (-1, pairFormRadius ^ 2)) =
        ((c : ℤ), candDistSq pos A c) := by
      rw [hsplit, List.foldl_append, List.foldl_cons, hstepc]
      refine selectFold_no_update l pos cats catA i A l₂ _ ?_
      intro k hk hke
      exact not_le.mpr (hcstrict k hk hke)
    have hstep2 := formationStep_of_best pos cats newDir l dirs i h A hA
      catA hcat c (candDistSq pos A c) hfold
    rw [hstep2]
    dsimp only
    rw [getSt_set_ne _ _ hic, getSt_set_self l i _ hi]

/-- Witness for C4 (amended) at the three-agent tie instance: the theorem's
existential part applied with witness candidate `m = 1`. -/
theorem closest_candidate_formation_witness :
    ∃ b : ℕ,
      (getSt (formationStep
          [some ⟨20, 0, 20⟩, some ⟨30, 0, 20⟩, some ⟨10, 0, 20⟩]
          [some "mid", some "low", some "low"] (fun _ => ⟨1, 0, 0⟩)
          ([{}, {}, {}], [none, none, none]) 0).1 0).partner = (b : ℤ) ∧
      (getSt (formationStep
          [some ⟨20, 0, 20⟩, some ⟨30, 0, 20⟩, some ⟨10, 0, 20⟩]
          [some "mid", some "low", some "low"] (fun _ => ⟨1, 0, 0⟩)
          ([{}, {}, {}], [none, none, none]) 0).1 b).partner = ((0 : ℕ) : ℤ) ∧
      selEligB [{}, {}, {}]
        [some ⟨20, 0, 20⟩, some ⟨30, 0, 20⟩, some ⟨10, 0, 20⟩]
        [some "mid", some "low", some "low"] "mid" 0 b = true ∧
      candDistSq [some ⟨20, 0, 20⟩, some ⟨30, 0, 20⟩, some ⟨10, 0, 20⟩]
        ⟨20, 0, 20⟩ b ≤ pairFormRadius ^ 2 ∧
      (∀ k : ℕ, selEligB [{}, {}, {}]
          [some ⟨20, 0, 20⟩, some ⟨30, 0, 20⟩, some ⟨10, 0, 20⟩]
          [some "mid", some "low", some "low"] "mid" 0 k = true →
        candDistSq [some ⟨20, 0, 20⟩, some ⟨30, 0, 20⟩, some ⟨10, 0, 20⟩]
          ⟨20, 0, 20⟩ k ≤ pairFormRadius ^ 2 →
        candDistSq [some ⟨20, 0, 20⟩, some ⟨30, 0, 20⟩, some ⟨10, 0, 20⟩]
          ⟨20, 0, 20⟩ b ≤
          candDistSq [some ⟨20, 0, 20⟩, some ⟨30, 0, 20⟩, some ⟨10, 0, 20⟩]
            ⟨20, 0, 20⟩ k) :=
  (closest_candidate_formation
    [some ⟨20, 0, 20⟩, some ⟨30, 0, 20⟩, some ⟨10, 0, 20⟩]
    [some "mid", some "low", some "low"] (fun _ => ⟨1, 0, 0⟩)
    [{}, {}, {}] [none, none, none] 0 (by decide) (by decide) (by decide)
    ⟨20, 0, 20⟩ (by decide) "mid" (by decide) 1 (by decide)
    (by rw [show candDistSq
        [some ⟨20, 0, 20⟩, some ⟨30, 0, 20⟩, some ⟨10, 0, 20⟩]
        ⟨20, 0, 20⟩ 1 = 100 from by norm_num [candDistSq, distSq3]]
        norm_num [pairFormRadius])).1


/-- The per-agent arrays of the engine: `peaks` (each peak stands in by its
pyramid center), `previousHeights`, and the three auxiliary arrays
`_pairStates`, `_lastPositions`, `_velocities`. -/
structure EngineArrays where
  peaks : List Q3
  previousHeights : List ℚ
  pairStates : List PairState
  lastPositions : List Q3
  velocities : List Q3

/-- `removeSinglePeak(index)` (lines 366–383): splices `peaks` and — when
long enough — `previousHeights` at `index`, and touches no other array. -/
def removeSinglePeak (e : EngineArrays) (index : ℕ) : EngineArrays :=
  if e.peaks.length ≤ index then e
  else
    { e with
      peaks := e.peaks.eraseIdx index
      previousHeights :=
        if index < e.previousHeights.length then e.previousHeights.eraseIdx index
        else e.previousHeights }

/-- `createSinglePeak(index, totalPeaks)` (lines 334–364): pushes one peak
(at its computed pyramid center) and one `previousHeights` entry. -/
def createSinglePeak (e : EngineArrays) (index totalPeaks : ℕ) : EngineArrays :=
  { e with
    peaks := e.peaks ++ [⟨(index : ℚ) * 80 - (totalPeaks : ℚ) * 80 / 2, 0, 0⟩]
    previousHeights := e.previousHeights ++ [8] }

/-- `adjustPeakCount(targetCount)` (lines 312–332): rejects non-positive
targets, grows with `createSinglePeak`, shrinks by calling
`removeSinglePeak(i)` for `i = currentCount - 1` down to `targetCount`. -/
def adjustPeakCount (e : EngineArrays) (targetCount : ℤ) : EngineArrays :=
  if targetCount ≤ 0 then e
  else
    let currentCount := e.peaks.length
    let t := targetCount.toNat
    if currentCount < t then
      (List.range' currentCount (t - currentCount)).foldl
        (fun acc i => createSinglePeak acc i t) e
    else if t < currentCount then
      (List.range (currentCount - t)).foldl
        (fun acc k => removeSinglePeak acc (currentCount - 1 - k)) e
    else e

/-- The `while (arr.length < this.peaks.length) arr.push(default)` pattern
of `update()` (lines 602–622): appends defaults up to `n`, never removes. -/
def growList {α : Type} (l : List α) (n : ℕ) (d : α) : List α :=
  l ++ List.replicate (n - l.length) d

/-- The auxiliary-array initialization at the top of `update()`
(lines 602–622): pad `_pairStates`, `_lastPositions` and `_velocities` up to
the population size. -/
def ensureAux (e : EngineArrays) : EngineArrays :=
  { e with
    pairStates := growList e.pairStates e.peaks.length default
    lastPositions := growList e.lastPositions e.peaks.length ⟨0, 0, 0⟩
    velocities := growList e.velocities e.peaks.length ⟨0, 0, 0⟩ }

/-- A ten-agent engine in which agents 2 and 7 are paired, about to shrink
to five agents. -/
def shrinkExample : EngineArrays :=
  { peaks := List.replicate 10 ⟨0, 0, 0⟩
    previousHeights := List.replicate 10 8
    pairStates := [{}, {}, { partner := 7 }, {}, {}, {}, {},
      { partner := 2 }, {}, {}]
    lastPositions := List.replicate 10 ⟨0, 0, 0⟩
    velocities := List.replicate 10 ⟨0, 0, 0⟩ }

/-- C3 counterexample: shrinking a ten-agent population to five removes the
five peaks, but the three auxiliary arrays keep length 10 even after the
next tick's array initialization (which only grows), and the surviving
agent 2 still records the removed agent 7 as its partner — nothing is
cleared to `none`. -/
theorem resize_no_truncation_cex :
    shrinkExample.peaks.length = 10 ∧
      (getSt shrinkExample.pairStates 2).partner = 7 ∧
      (adjustPeakCount shrinkExample 5).peaks.length = 5 ∧
      (ensureAux (adjustPeakCount shrinkExample 5)).pairStates.length = 10 ∧
      (ensureAux (adjustPeakCount shrinkExample 5)).lastPositions.length = 10 ∧
      (ensureAux (adjustPeakCount shrinkExample 5)).velocities.length = 10 ∧
      (getSt (ensureAux
        (adjustPeakCount shrinkExample 5)).pairStates 2).partner = 7 := by
  decide

theorem growList_of_le {α : Type} (l : List α) (n : ℕ) (d : α)
    (h : n ≤ l.length) : growList l n d = l := by
  unfold growList
  rw [Nat.sub_eq_zero_of_le h]
  simp

theorem removeSinglePeak_peaks_length (e : EngineArrays) (index : ℕ)
    (h : index < e.peaks.length) :
    (removeSinglePeak e index).peaks.length = e.peaks.length - 1 := by
  unfold removeSinglePeak
  rw [if_neg (by omega)]
  simp only [List.length_eraseIdx]
  rw [if_pos h]

theorem removeSinglePeak_prevH_length (e : EngineArrays) (index : ℕ)
    (h : index < e.peaks.length) (h2 : index < e.previousHeights.length) :
    (removeSinglePeak e index).previousHeights.length =
      e.previousHeights.length - 1 := by
  unfold removeSinglePeak
  rw [if_neg (by omega)]
  dsimp only
  rw [if_pos h2]
  simp only [List.length_eraseIdx]
  rw [if_pos h2]

theorem removeSinglePeak_pairStates (e : EngineArrays) (index : ℕ) :
    (removeSinglePeak e index).pairStates = e.pairStates := by
  unfold removeSinglePeak
  split <;> rfl

theorem removeSinglePeak_lastPositions (e : EngineArrays) (index : ℕ) :
    (removeSinglePeak e index).lastPositions = e.lastPositions := by
  unfold removeSinglePeak
  split <;> rfl

theorem removeSinglePeak_velocities (e : EngineArrays) (index : ℕ) :
    (removeSinglePeak e index).velocities = e.velocities := by
  unfold removeSinglePeak
  split <;> rfl

/-- The shrink loop of `adjustPeakCount`: after removing the top `n` peaks,
`peaks` and `previousHeights` have shrunk by `n` and the three auxiliary
arrays are untouched. -/
theorem shrinkFold (e : EngineArrays) (n : ℕ) (hn : n ≤ e.peaks.length)
    (hph : e.previousHeights.length = e.peaks.length) :
    ((List.range n).foldl
        (fun acc k => removeSinglePeak acc (e.peaks.length - 1 - k))
        e).peaks.length = e.peaks.length - n ∧
      ((List.range n).foldl
        (fun acc k => removeSinglePeak acc (e.peaks.length - 1 - k))
        e).previousHeights.length = e.peaks.length - n ∧
      ((List.range n).foldl
        (fun acc k => removeSinglePeak acc (e.peaks.length - 1 - k))
        e).pairStates = e.pairStates ∧
      ((List.range n).foldl
        (fun acc k => removeSinglePeak acc (e.peaks.length - 1 - k))
        e).lastPositions = e.lastPositions ∧
      ((List.range n).foldl
        (fun acc k => removeSinglePeak acc (e.peaks.length - 1 - k))
        e).velocities = e.velocities := by
  induction n with
  | zero => simp [hph]
  | succ n ih =>
    have hn' : n ≤ e.peaks.length := by omega
    obtain ⟨q1, q2, q3, q4, q5⟩ := ih hn'
    rw [List.range_succ, List.foldl_append, List.foldl_cons, List.foldl_nil]
    have hlt : e.peaks.length - 1 - n <
        ((List.range n).foldl
          (fun acc k => removeSinglePeak acc (e.peaks.length - 1 - k))
          e).peaks.length := by omega
    have hlt2 : e.peaks.length - 1 - n <
        ((List.range n).foldl
          (fun acc k => removeSinglePeak acc (e.peaks.length - 1 - k))
          e).previousHeights.length := by omega
    rw [removeSinglePeak_peaks_length _ _ hlt,
      removeSinglePeak_prevH_length _ _ hlt hlt2,
      removeSinglePeak_pairStates, removeSinglePeak_lastPositions,
      removeSinglePeak_velocities, q1, q2, q3, q4, q5]
    refine ⟨by omega, by omega, rfl, rfl, rfl⟩

/-- C3 (amended): when the population shrinks to a positive target
`t ≤ currentCount`, `adjustPeakCount` truncates `peaks` and
`previousHeights` to length `t` but returns the three auxiliary arrays
verbatim, and the next tick's array initialization — which only grows —
also leaves them verbatim: their lengths stay at the old population size
and every stored partner index (including references to removed agents)
survives unchanged. -/
theorem resize_shrink_keeps_aux (e : EngineArrays) (t : ℤ) (h0 : 0 < t)
    (hle : t.toNat ≤ e.peaks.length)
    (hph : e.previousHeights.length = e.peaks.length)
    (hp : e.peaks.length ≤ e.pairStates.length)
    (hl : e.peaks.length ≤ e.lastPositions.length)
    (hv : e.peaks.length ≤ e.velocities.length) :
    (adjustPeakCount e t).peaks.length = t.toNat ∧
      (adjustPeakCount e t).previousHeights.length = t.toNat ∧
      (adjustPeakCount e t).pairStates = e.pairStates ∧
      (adjustPeakCount e t).lastPositions = e.lastPositions ∧
      (adjustPeakCount e t).velocities = e.velocities ∧
      (ensureAux (adjustPeakCount e t)).pairStates = e.pairStates ∧
      (ensureAux (adjustPeakCount e t)).lastPositions = e.lastPositions ∧
      (ensureAux (adjustPeakCount e t)).velocities = e.velocities := by
  have key : (adjustPeakCount e t).peaks.length = t.toNat ∧
      (adjustPeakCount e t).previousHeights.length = t.toNat ∧
      (adjustPeakCount e t).pairStates = e.pairStates ∧
      (adjustPeakCount e t).lastPositions = e.lastPositions ∧
      (adjustPeakCount e t).velocities = e.velocities := by
    unfold adjustPeakCount
    rw [if_neg (by omega : ¬t ≤ 0)]
    dsimp only
    by_cases hc : e.peaks.length < t.toNat
    · exact absurd hc (by omega)
    · rw [if_neg hc]
      by_cases hc2 : t.toNat < e.peaks.length
      · rw [if_pos hc2]
        obtain ⟨q1, q2, q3, q4, q5⟩ :=
          shrinkFold e (e.peaks.length - t.toNat) (by omega) hph
        exact ⟨by rw [q1]; omega, by rw [q2]; omega, q3, q4, q5⟩
      · rw [if_neg hc2]
        exact ⟨by omega, by omega, rfl, rfl, rfl⟩
  obtain ⟨k1, k2, k3, k4, k5⟩ := key
  refine ⟨k1, k2, k3, k4, k5, ?_, ?_, ?_⟩
  · unfold ensureAux
    dsimp only
    rw [k3, k1]
    exact growList_of_le _ _ _ (by omega)
  · unfold ensureAux
    dsimp only
    rw [k4, k1]
    exact growList_of_le _ _ _ (by omega)
  · unfold ensureAux
    dsimp only
    rw [k5, k1]
    exact growList_of_le _ _ _ (by omega)

/-- Witness for C3 (amended) at the ten-to-five shrink instance. -/
theorem resize_shrink_keeps_aux_witness :
    (adjustPeakCount shrinkExample 5).peaks.length = (5 : ℤ).toNat ∧
      (adjustPeakCount shrinkExample 5).previousHeights.length =
        (5 : ℤ).toNat ∧
      (adjustPeakCount shrinkExample 5).pairStates =
        shrinkExample.pairStates ∧
      (adjustPeakCount shrinkExample 5).lastPositions =
        shrinkExample.lastPositions ∧
      (adjustPeakCount shrinkExample 5).velocities =
        shrinkExample.velocities ∧
      (ensureAux (adjustPeakCount shrinkExample 5)).pairStates =
        shrinkExample.pairStates ∧
      (ensureAux (adjustPeakCount shrinkExample 5)).lastPositions =
        shrinkExample.lastPositions ∧
      (ensureAux (adjustPeakCount shrinkExample 5)).velocities =
        shrinkExample.velocities :=
  resize_shrink_keeps_aux shrinkExample 5 (by decide) (by decide) (by decide)
    (by decide) (by decide) (by decide)


/-- A `THREE.Vector3` for the norm-dependent parts of the engine, over ℝ
(the grid and pairing logic above uses the exact ℚ model `Q3`). -/
structure R3 where
  x : ℝ
  y : ℝ
  z : ℝ

/-- `THREE.Vector3.lengthSq`. -/
def R3.normSq (v : R3) : ℝ := v.x ^ 2 + v.y ^ 2 + v.z ^ 2

/-- `THREE.Vector3.length`. -/
noncomputable def len3 (v : R3) : ℝ := Real.sqrt v.normSq

noncomputable def add3 (a b : R3) : R3 := ⟨a.x + b.x, a.y + b.y, a.z + b.z⟩

noncomputable def sub3 (a b : R3) : R3 := ⟨a.x - b.x, a.y - b.y, a.z - b.z⟩

noncomputable def smul3 (c : ℝ) (v : R3) : R3 := ⟨c * v.x, c * v.y, c * v.z⟩

/-- `THREE.Vector3.lerp(v, alpha)`: `this += (v - this) * alpha`. -/
noncomputable def lerp3 (a b : R3) (t : ℝ) : R3 :=
  ⟨a.x + (b.x - a.x) * t, a.y + (b.y - a.y) * t, a.z + (b.z - a.z) * t⟩

/-- `THREE.Vector3.normalize`: `divideScalar(length || 1)` — a zero vector
is divided by 1 and stays zero, no NaN is produced. -/
noncomputable def normalize3 (v : R3) : R3 :=
  if len3 v = 0 then v else smul3 (1 / len3 v) v

/-- `THREE.Vector3.setLength(L)`: `normalize().multiplyScalar(L)`. -/
noncomputable def setLength3 (v : R3) (L : ℝ) : R3 := smul3 L (normalize3 v)

/-- The `if (v.length() > L) v.setLength(L)` pattern of `update()`
(lines 689–691 and 711–713). -/
noncomputable def clampToLength (v : R3) (L : ℝ) : R3 :=
  if L < len3 v then setLength3 v L else v

noncomputable def maxVelocity : ℝ := 3 / 2

noncomputable def maxOffset : ℝ := 5

noncomputable def swarmWeight : ℝ := 1 / 5

noncomputable def followLerp : ℝ := 1 / 20

noncomputable def avoidCenterRadius : ℝ := 50

noncomputable def avoidCenterStrength : ℝ := 4 / 5

/-- The per-agent integration step of `update()` (lines 684–716): damp the
accumulated force offset by the hardcoded 0.85, clamp it to `maxOffset`,
lerp the position toward the swarm base target (weight 0.55 · swarmWeight
when paired), add the force offset, derive the desired velocity through
`followLerp`, blend it into the stored velocity with factor 0.3, clamp to
`maxVelocity`, and add the velocity to the position.  Returns the new
`(currentPyramidCenter, velocity)`. -/
noncomputable def integrationStep (paired : Bool)
    (pos baseTarget forceOffset0 vel : R3) : R3 × R3 :=
  let forceOffset := clampToLength (smul3 (17 / 20) forceOffset0) maxOffset
  let swirlWeight := if paired then swarmWeight * (11 / 20) else swarmWeight
  let swirlTarget := lerp3 pos baseTarget swirlWeight
  let adjustedTarget := add3 swirlTarget forceOffset
  let desiredVel := smul3 followLerp (sub3 adjustedTarget pos)
  let newVel := clampToLength (lerp3 vel desiredVel (3 / 10)) maxVelocity
  (add3 pos newVel, newVel)

/-- `generateSwarmPeakPositions(numPeaks, time)` (lines 13–26), entry `i`:
the swarm base targets always have `y = 0`. -/
noncomputable def generateSwarmPeakPosition (i : ℕ) (time : ℝ) : R3 :=
  let t := time + i * 10
  let angle := Real.sin (t * (13 / 100) + i) * Real.pi +
    Real.cos (t * (17 / 100) + i * (1 / 2)) * Real.pi * (1 / 2)
  let radius := 50 + Real.sin (t * (7 / 100) + i) * 75 * (1 / 2) +
    Real.cos (t * (11 / 100) + i) * 75 * (3 / 10)
  ⟨Real.cos angle * radius, 0, Real.sin angle * radius⟩

/-- The center-avoidance block of `_applyExplorationForces`
(lines 1440–1457): `radial = currentPyramidCenter.clone().setY(0)`; inside
`avoidCenterRadius` a quadratic-falloff outward push along
`radial.normalize()`, except that within `1e-4` of the axis the direction
is `(random - 0.5, 0, random - 0.5).normalize()`; `r1`, `r2` are the two
`Math.random()` draws. -/
noncomputable def centerAvoidContribution (pos : R3) (r1 r2 : ℝ) : R3 :=
  let radial : R3 := ⟨pos.x, 0, pos.z⟩
  let radialLen := len3 radial
  if radialLen < avoidCenterRadius then
    let proximity := 1 - radialLen / avoidCenterRadius
    let pushOutward := proximity * proximity * avoidCenterStrength
    if 1 / 10000 < radialLen then
      smul3 pushOutward (normalize3 radial)
    else
      smul3 avoidCenterStrength (normalize3 ⟨r1 - 1 / 2, 0, r2 - 1 / 2⟩)
  else ⟨0, 0, 0⟩

theorem normSq_nonneg (v : R3) : 0 ≤ v.normSq := by
  unfold R3.normSq
  positivity

theorem len3_nonneg (v : R3) : 0 ≤ len3 v := Real.sqrt_nonneg _

theorem len3_smul3 (c : ℝ) (v : R3) : len3 (smul3 c v) = |c| * len3 v := by
  unfold len3 smul3 R3.normSq
  dsimp only
  rw [show (c * v.x) ^ 2 + (c * v.y) ^ 2 + (c * v.z) ^ 2 =
    c ^ 2 * (v.x ^ 2 + v.y ^ 2 + v.z ^ 2) from by ring]
  rw [Real.sqrt_mul (sq_nonneg c), Real.sqrt_sq_eq_abs]

theorem len3_normalize3 (v : R3) (h : len3 v ≠ 0) :
    len3 (normalize3 v) = 1 := by
  unfold normalize3
  rw [if_neg h, len3_smul3]
  have hpos : 0 < len3 v := lt_of_le_of_ne (len3_nonneg v) (Ne.symm h)
  rw [abs_of_pos (by positivity)]
  field_simp

theorem len3_setLength3 (v : R3) (L : ℝ) (h : len3 v ≠ 0) :
    len3 (setLength3 v L) = |L| := by
  unfold setLength3
  rw [len3_smul3, len3_normalize3 v h, mul_one]

theorem len3_clampToLength (v : R3) (L : ℝ) (hL : 0 < L) :
    len3 (clampToLength v L) ≤ L := by
  unfold clampToLength
  split
  · next hlt =>
    have hv : len3 v ≠ 0 := ne_of_gt (lt_trans hL hlt)
    rw [len3_setLength3 v L hv, abs_of_pos hL]
  · next hlt => exact not_lt.mp hlt

/-- C6: Velocity bound.  After the integration step, for any pairing flag,
position, base target, accumulated force offset and stored velocity, the
stored velocity satisfies `|velocity| ≤ maxVelocity`. -/
theorem velocity_bound (paired : Bool) (pos baseTarget forceOffset0 vel : R3) :
    len3 (integrationStep paired pos baseTarget forceOffset0 vel).2 ≤
      maxVelocity := by
  unfold integrationStep
  dsimp only
  exact len3_clampToLength _ _ (by norm_num [maxVelocity])



theorem clampToLength_y (v : R3) (L : ℝ) (hy : v.y = 0) :
    (clampToLength v L).y = 0 := by
  unfold clampToLength setLength3 normalize3
  split
  · split
    · simp [smul3, hy]
    · simp [smul3, hy]
  · exact hy

theorem add3_y (a b : R3) : (add3 a b).y = a.y + b.y := rfl

theorem sub3_y (a b : R3) : (sub3 a b).y = a.y - b.y := rfl

theorem smul3_y (c : ℝ) (v : R3) : (smul3 c v).y = c * v.y := rfl

theorem lerp3_y (a b : R3) (t : ℝ) : (lerp3 a b t).y = a.y + (b.y - a.y) * t := rfl

/-- C7 (amended): the engine DOES write the y component of the position
(see the counterexample), but the swarm plane is preserved: whenever the
position, base target, force offset and velocity all have `y = 0` — and the
engine's own swarm targets always do — the integration step returns a
position and velocity with `y = 0`. -/
theorem vertical_zero_preserved (paired : Bool) (pos baseTarget f0 vel : R3)
    (hp : pos.y = 0) (hb : baseTarget.y = 0) (hf : f0.y = 0)
    (hv : vel.y = 0) :
    ((integrationStep paired pos baseTarget f0 vel).1).y = 0 ∧
      ((integrationStep paired pos baseTarget f0 vel).2).y = 0 ∧
      ∀ (i : ℕ) (time : ℝ), (generateSwarmPeakPosition i time).y = 0 := by
  have hoff : (clampToLength (smul3 (17 / 20) f0) maxOffset).y = 0 :=
    clampToLength_y _ _ (by rw [smul3_y, hf, mul_zero])
  have hnv : (clampToLength (lerp3 vel (smul3 followLerp (sub3 (add3
      (lerp3 pos baseTarget
        (if paired then swarmWeight * (11 / 20) else swarmWeight))
      (clampToLength (smul3 (17 / 20) f0) maxOffset)) pos)) (3 / 10))
      maxVelocity).y = 0 := by
    refine clampToLength_y _ _ ?_
    rw [lerp3_y, smul3_y, sub3_y, add3_y, lerp3_y, hoff, hv, hp, hb]
    ring
  refine ⟨?_, ?_, ?_⟩
  · unfold integrationStep
    dsimp only
    rw [add3_y, hp, hnv, add_zero]
  · unfold integrationStep
    dsimp only
    exact hnv
  · intro i time
    rfl

/-- Witness for C7 (amended) at a concrete in-plane input. -/
theorem vertical_zero_preserved_witness :
    ((integrationStep false ⟨1, 0, 2⟩ ⟨3, 0, 4⟩ ⟨5, 0, 6⟩ ⟨0, 0, 0⟩).1).y = 0 ∧
      ((integrationStep false ⟨1, 0, 2⟩ ⟨3, 0, 4⟩ ⟨5, 0, 6⟩ ⟨0, 0, 0⟩).2).y =
        0 ∧
      ∀ (i : ℕ) (time : ℝ), (generateSwarmPeakPosition i time).y = 0 :=
  vertical_zero_preserved false ⟨1, 0, 2⟩ ⟨3, 0, 4⟩ ⟨5, 0, 6⟩ ⟨0, 0, 0⟩
    rfl rfl rfl rfl

/-- C7 counterexample: an agent whose position has `y = 10` (say written
by the external height mapping), zero forces and zero velocity: the
integration step lerps the position toward the swarm target's `y = 0` and
stores `y = 9.97` — the engine overwrites the vertical component. -/
theorem vertical_overwrite_cex :
    ((integrationStep false ⟨0, 10, 0⟩ ⟨0, 0, 0⟩ ⟨0, 0, 0⟩
      ⟨0, 0, 0⟩).1).y = 997 / 100 ∧ ((997 : ℝ) / 100) ≠ 10 := by
  constructor
  · have hlen0 : len3 (⟨0, 0, 0⟩ : R3) = 0 := by
      simp [len3, R3.normSq]
    have h0 : smul3 ((17 : ℝ) / 20) ⟨0, 0, 0⟩ = ⟨0, 0, 0⟩ := by
      simp [smul3]
    have hclamp0 : clampToLength (⟨0, 0, 0⟩ : R3) maxOffset = ⟨0, 0, 0⟩ := by
      unfold clampToLength
      rw [hlen0, if_neg (by norm_num [maxOffset])]
    have hswirl : lerp3 ⟨0, 10, 0⟩ ⟨0, 0, 0⟩ swarmWeight = ⟨0, 8, 0⟩ := by
      norm_num [lerp3, swarmWeight]
    have hadj : add3 ⟨0, 8, 0⟩ ⟨0, 0, 0⟩ = ⟨0, 8, 0⟩ := by
      norm_num [add3]
    have hsub : sub3 ⟨0, 8, 0⟩ ⟨0, 10, 0⟩ = ⟨0, -2, 0⟩ := by
      norm_num [sub3]
    have hdes : smul3 followLerp ⟨0, -2, 0⟩ = ⟨0, -1 / 10, 0⟩ := by
      norm_num [smul3, followLerp]
    have hv1 : lerp3 ⟨0, 0, 0⟩ ⟨0, -1 / 10, 0⟩ (3 / 10) =
        ⟨0, -3 / 100, 0⟩ := by
      norm_num [lerp3]
    have hlenv1 : len3 (⟨0, -3 / 100, 0⟩ : R3) = 3 / 100 := by
      unfold len3 R3.normSq
      rw [show ((⟨0, -3 / 100, 0⟩ : R3).x ^ 2 + (⟨0, -3 / 100, 0⟩ : R3).y ^ 2 +
        (⟨0, -3 / 100, 0⟩ : R3).z ^ 2 : ℝ) = (3 / 100) ^ 2 from by norm_num]
      rw [Real.sqrt_sq (by norm_num)]
    have hclampv : clampToLength ⟨0, -3 / 100, 0⟩ maxVelocity =
        ⟨0, -3 / 100, 0⟩ := by
      unfold clampToLength
      rw [hlenv1, if_neg (by norm_num [maxVelocity])]
    unfold integrationStep
    dsimp only
    rw [show (if (false : Bool) = true then swarmWeight * (11 / 20)
      else swarmWeight) = swarmWeight from rfl]
    rw [h0, hclamp0, hswirl, hadj, hsub, hdes, hv1, hclampv]
    norm_num [add3]
  · norm_num

/-- C9 (amended): for an agent exactly on the vertical axis, the
center-avoidance contribution has magnitude exactly `avoidCenterStrength`
(in particular it is non-zero and finite) for every pair of random draws
EXCEPT the single pair `(0.5, 0.5)`, for which the fallback direction
`(0, 0, 0).normalize()` is the zero vector (no NaN — three.js divides by
`length || 1` — but the contribution vanishes; see the counterexample). -/
theorem origin_center_avoidance (pos : R3) (hx : pos.x = 0) (hz : pos.z = 0)
    (r1 r2 : ℝ) (h : ¬(r1 = 1 / 2 ∧ r2 = 1 / 2)) :
    len3 (centerAvoidContribution pos r1 r2) = avoidCenterStrength ∧
      centerAvoidContribution pos r1 r2 ≠ ⟨0, 0, 0⟩ := by
  have hdir : len3 (⟨r1 - 1 / 2, 0, r2 - 1 / 2⟩ : R3) ≠ 0 := by
    unfold len3 R3.normSq
    dsimp only
    rw [Real.sqrt_ne_zero']
    rcases not_and_or.mp h with h1 | h2
    · have h1' : r1 - 1 / 2 ≠ 0 := sub_ne_zero.mpr h1
      have hq : 0 < (r1 - 1 / 2) ^ 2 :=
        lt_of_le_of_ne (sq_nonneg _) (Ne.symm (pow_ne_zero 2 h1'))
      nlinarith [sq_nonneg (r2 - 1 / 2)]
    · have h2' : r2 - 1 / 2 ≠ 0 := sub_ne_zero.mpr h2
      have hq : 0 < (r2 - 1 / 2) ^ 2 :=
        lt_of_le_of_ne (sq_nonneg _) (Ne.symm (pow_ne_zero 2 h2'))
      nlinarith [sq_nonneg (r1 - 1 / 2)]
  have hlen : len3 (centerAvoidContribution pos r1 r2) =
      avoidCenterStrength := by
    unfold centerAvoidContribution
    dsimp only
    have hrad : len3 (⟨pos.x, 0, pos.z⟩ : R3) = 0 := by
      rw [show (⟨pos.x, 0, pos.z⟩ : R3) = ⟨0, 0, 0⟩ from by rw [hx, hz]]
      simp [len3, R3.normSq]
    rw [hrad, if_pos (by norm_num [avoidCenterRadius]),
      if_neg (by norm_num)]
    rw [len3_smul3, len3_normalize3 _ hdir, mul_one,
      abs_of_pos (by norm_num [avoidCenterStrength])]
  refine ⟨hlen, ?_⟩
  intro hzero
  rw [hzero] at hlen
  revert hlen
  simp [len3, R3.normSq, avoidCenterStrength]
  norm_num

/-- Witness for C9 (amended) at the origin with draws `(1, 0)`. -/
theorem origin_center_avoidance_witness :
    len3 (centerAvoidContribution ⟨0, 0, 0⟩ 1 0) = avoidCenterStrength ∧
      centerAvoidContribution ⟨0, 0, 0⟩ 1 0 ≠ ⟨0, 0, 0⟩ :=
  origin_center_avoidance ⟨0, 0, 0⟩ rfl rfl 1 0 (by norm_num)

/-- C9 counterexample: at the exact origin, when both `Math.random()`
draws are exactly `0.5`, the fallback direction normalizes the zero vector
and the center-avoidance contribution is the zero vector — not non-zero. -/
theorem origin_center_avoidance_cex :
    centerAvoidContribution ⟨0, 0, 0⟩ (1 / 2) (1 / 2) = ⟨0, 0, 0⟩ := by
  unfold centerAvoidContribution
  dsimp only
  have hl : len3 (⟨0, 0, 0⟩ : R3) = 0 := by simp [len3, R3.normSq]
  rw [hl, if_pos (by norm_num [avoidCenterRadius]), if_neg (by norm_num)]
  rw [show ((1 : ℝ) / 2 - 1 / 2) = 0 from by norm_num]
  unfold normalize3
  rw [hl, if_pos rfl]
  norm_num [smul3]

end Swarm
